import Mathlib

/-!
A shallow embedding of the claude-bootstrap installer (src/install.py).

Modelling conventions:
* a filesystem path is a list of components (`Path`);
* the filesystem is an association list from paths to nodes, first
  binding wins (`FS`);
* the outside world is an oracle structure `Env`: it fixes the host
  Python version, whether the external `git`, network, `pip`, Ollama and
  test-subprocess operations succeed, the file trees produced by a
  successful clone / zip extraction / pull, and whether the individual
  filesystem and process primitives raise an OS-level exception;
* each `print` is recorded in `St.out`; each external operation that the
  script attempts (subprocess invocation, network request, filesystem
  mutation) is recorded in `St.evs`;
* `sys.exit(n)` is `MainResult.exited n`; an uncaught Python exception
  propagating out of `main` (which terminates the interpreter with exit
  status 1 after a traceback) is `MainResult.raised e`.

Function names follow the Python source (`check_python`, `clone_repo`,
`download_zip`, `setup_directories`, `create_config`,
`install_dependencies`, `check_ollama`, `test_install`, `start_daemon`).
The body of `main` is split into the named stages `acquireStep`,
`afterAcquire`, `tailSteps` and `finishSteps` so that theorems can speak
about pipeline positions; composing them in order gives exactly the
statement sequence of `main` in the source.
-/

namespace Bootstrap

/-- A filesystem path, as a list of components. -/
abbrev Path := List String

/-- A filesystem node: a directory, or a file with its content. -/
inductive Node where
  | dir : Node
  | file : String → Node
deriving DecidableEq

/-- The filesystem: an association list from paths to nodes. -/
abbrev FS := List (Path × Node)

/-- External operations attempted by the installer. -/
inductive Event where
  | gitVersion
  | gitClone
  | gitPull
  | httpDownload
  | zipExtract
  | mkdirE (p : Path)
  | copyE
  | rmtreeE
  | renameE
  | pipInstall
  | ollamaProbe
  | runTest (timeoutSec : Nat)
  | spawnDaemon
deriving DecidableEq

/-- Oracle for the world outside the interpreter.  Field order:
python major / minor / micro version; git available; git clone exit ok;
tree written by a successful clone (relative to the target directory);
download raises; extraction raises; tree written by extraction (relative
to the parent of the target); tree written by `git pull` (relative to the
target); OS faults for mkdir / copy / rmtree / rename / Popen; pip exit
ok; Ollama probe ok; test subprocess raises (e.g. timeout); test stdout;
test returncode; the --start flag; the --no-deps flag. -/
structure Env where
  pyMajor : Nat
  pyMinor : Nat
  pyMicro : Nat
  gitOk : Bool
  cloneOk : Bool
  cloneFiles : List (Path × Node)
  downloadRaises : Bool
  extractRaises : Bool
  zipEntries : List (Path × Node)
  pullWrites : List (Path × Node)
  mkdirRaises : Bool
  copyRaises : Bool
  rmtreeRaises : Bool
  renameRaises : Bool
  popenRaises : Bool
  pipOk : Bool
  ollamaOk : Bool
  testRaises : Bool
  testStdout : String
  testReturncode : Int
  startFlag : Bool
  noDeps : Bool

/-- Interpreter-visible state: the filesystem, the printed lines, and the
log of attempted external operations. -/
structure St where
  fs : FS
  out : List String
  evs : List Event
deriving DecidableEq

/-- Look a path up in the filesystem (first binding wins). -/
def lookupP (fs : FS) (p : Path) : Option Node :=
  match fs with
  | [] => none
  | (q, n) :: rest => if q = p then some n else lookupP rest p

/-- `Path.exists()`. -/
def pexists (fs : FS) (p : Path) : Bool := (lookupP fs p).isSome

/-- The path exists and is a directory. -/
def isDirAt (fs : FS) (p : Path) : Bool :=
  match lookupP fs p with
  | some .dir => true
  | _ => false

/-- Write a node at a path, replacing the first existing binding. -/
def setNode (fs : FS) (p : Path) (n : Node) : FS :=
  match fs with
  | [] => [(p, n)]
  | (q, m) :: rest => if q = p then (q, n) :: rest else (q, m) :: setNode rest p n

/-- All prefixes of a path, shortest first (the ancestor chain). -/
def prefixChain : Path → List Path
  | [] => [[]]
  | a :: t => [] :: (prefixChain t).map (fun q => a :: q)

/-- One step of ancestor creation: ensure every path in the list is a
directory, creating the missing ones, failing on an existing
non-directory. -/
def ensureChain (fs : FS) (ps : List Path) : Except String FS :=
  match ps with
  | [] => .ok fs
  | p :: rest =>
    match lookupP fs p with
    | some .dir => ensureChain fs rest
    | some (.file _) => .error ("FileExistsError")
    | none => ensureChain (setNode fs p .dir) rest

/-- `Path.mkdir(parents=True, exist_ok=True)`: an existing directory is
left alone; an existing non-directory raises; otherwise the path and its
missing ancestors are created. -/
def mkdirP (fs : FS) (p : Path) : Except String FS :=
  match lookupP fs p with
  | some .dir => .ok fs
  | some (.file _) => .error ("FileExistsError")
  | none => ensureChain fs (prefixChain p)

/-- Is `p` a prefix of `q`? -/
def isPre (p q : Path) : Bool :=
  match p, q with
  | [], _ => true
  | _ :: _, [] => false
  | a :: p1, b :: q1 => a = b && isPre p1 q1

/-- `shutil.rmtree`: drop the path and everything below it. -/
def removeTree (fs : FS) (p : Path) : FS :=
  fs.filter (fun e => !(isPre p e.1))

/-- `Path.rename`: re-root the subtree at `src` to `dst`. -/
def renameTree (fs : FS) (src dst : Path) : FS :=
  fs.map (fun e => if isPre src e.1 then (dst ++ e.1.drop src.length, e.2) else e)

/-- Write a relative tree under a base path. -/
def applyWrites (base : Path) (ws : List (Path × Node)) (fs : FS) : FS :=
  ws.foldl (fun acc w => setNode acc (base ++ w.1) w.2) fs

/-- Record a printed line. -/
def pr (s : St) (l : String) : St := ⟨s.fs, s.out ++ [l], s.evs⟩

/-- Record an attempted external operation. -/
def ev (s : St) (e : Event) : St := ⟨s.fs, s.out, s.evs ++ [e]⟩

/-- Replace the filesystem component of the state. -/
def wfs (s : St) (fs : FS) : St := ⟨fs, s.out, s.evs⟩

/-- REPO_URL. -/
def repoURL : String := "https://github.com/wetwi/claude-agent"

/-- REPO_ZIP. -/
def repoZip : String := repoURL ++ "/archive/refs/heads/main.zip"

/-- Render a path the way the script interpolates `target_dir`. -/
def pathStr (T : Path) : String := String.intercalate ("/") T

/-- The five required subdirectories created by `setup_directories`. -/
def dirList (T : Path) : List Path :=
  [T ++ ["vault"], T ++ ["vault", "Daemon Thoughts"], T ++ ["outbox"],
   T ++ ["memory"], T ++ ["snapshots"]]

/-- `target_dir / "config.py"`. -/
def configPath (T : Path) : Path := T ++ ["config.py"]

/-- `target_dir / "config.example.py"`. -/
def examplePath (T : Path) : Path := T ++ ["config.example.py"]

/-- `target_dir / "requirements.txt"`. -/
def reqPath (T : Path) : Path := T ++ ["requirements.txt"]

/-- `target_dir / "daemon.py"`. -/
def daemonPath (T : Path) : Path := T ++ ["daemon.py"]

/-- `target_dir / "me.py"`, the installation marker. -/
def markerPath (T : Path) : Path := T ++ ["me.py"]

/-- `target_dir / ".git"`. -/
def gitMetaPath (T : Path) : Path := T ++ [".git"]

/-- `target_dir.exists() and (target_dir / "me.py").exists()`. -/
def markerPresent (fs : FS) (T : Path) : Bool :=
  pexists fs T && pexists fs (markerPath T)

/-- The version test of `check_python`:
`v.major < 3 or (v.major == 3 and v.minor < 10)`. -/
def belowMinB (env : Env) : Bool :=
  env.pyMajor < 3 || (env.pyMajor == 3 && env.pyMinor < 10)

/-- Lexicographic order on (major, minor) pairs, the spec's reading of
"version below the minimum major.minor". -/
def lexBelow (a b c d : Nat) : Prop := a < c ∨ (a = c ∧ b < d)

/-- Is one character list an infix of another? -/
def listInfix (needle hay : List Char) : Bool :=
  match hay with
  | [] => needle.isEmpty
  | _ :: t => needle.isPrefixOf hay || listInfix needle t

/-- Python's `needle in hay` on strings. -/
def containsSub (hay needle : String) : Bool := listInfix needle.toList hay.toList

/-- A `d.mkdir(...)` call: OS fault from the oracle, else the `mkdirP`
semantics. -/
def mkdirOp (env : Env) (p : Path) (s : St) : St × Except String Unit :=
  let s := ev s (.mkdirE p)
  if env.mkdirRaises then (s, .error ("OSError"))
  else
    match mkdirP s.fs p with
    | .error e => (s, .error e)
    | .ok fs1 => (wfs s fs1, .ok ())

/-- A `shutil.copy(src, dst)` call: OS fault from the oracle, else copy
the file content. -/
def copyOp (env : Env) (src dst : Path) (s : St) : St × Except String Unit :=
  let s := ev s .copyE
  if env.copyRaises then (s, .error ("OSError"))
  else
    match lookupP s.fs src with
    | some (.file c) => (wfs s (setNode s.fs dst (.file c)), .ok ())
    | some .dir => (s, .error ("IsADirectoryError"))
    | none => (s, .error ("FileNotFoundError"))

/-- `check_python`: version gate, with the corresponding print. -/
def check_python (env : Env) (s : St) : St × Bool :=
  if belowMinB env then
    (pr s ("[ERROR] Python 3.10+ required. You have " ++ toString env.pyMajor
      ++ "." ++ toString env.pyMinor), false)
  else
    (pr s ("[OK] Python " ++ toString env.pyMajor ++ "." ++ toString env.pyMinor
      ++ "." ++ toString env.pyMicro), true)

/-- `check_git`: run `git --version`; both `CalledProcessError` and
`FileNotFoundError` are caught and turned into `false`. -/
def check_git (env : Env) (s : St) : St × Bool :=
  (ev s .gitVersion, env.gitOk)

/-- `clone_repo`: `git clone REPO_URL target` with `check=True`; a
`CalledProcessError` is caught and reported.  A successful clone creates
the target directory and writes the repository tree under it. -/
def clone_repo (env : Env) (T : Path) (s : St) : St × Bool :=
  let s := pr s ("[...] Cloning " ++ repoURL)
  let s := ev s .gitClone
  if env.cloneOk then
    let s := wfs s (applyWrites T env.cloneFiles (setNode s.fs T .dir))
    (pr s ("[OK] Repository cloned"), true)
  else
    (pr s ("[ERROR] Git clone failed"), false)

/-- `download_zip`: download the archive, extract it next to the target,
and if the expected `claude-agent-main` folder appeared, remove any
existing target and rename the folder into place.  Every exception inside
the step (network, extraction, rmtree, rename) is caught and reported as
failure. -/
def download_zip (env : Env) (T : Path) (s : St) : St × Bool :=
  let s := pr s ("[...] Downloading " ++ repoZip)
  let s := ev s .httpDownload
  if env.downloadRaises then (pr s ("[ERROR] Download failed"), false)
  else
    let s := pr s ("[...] Extracting...")
    let s := ev s .zipExtract
    if env.extractRaises then (pr s ("[ERROR] Download failed"), false)
    else
      let s := wfs s (applyWrites T.dropLast env.zipEntries s.fs)
      let extracted := T.dropLast ++ ["claude-agent-main"]
      if pexists s.fs extracted then
        if pexists s.fs T then
          let s := ev s .rmtreeE
          if env.rmtreeRaises then (pr s ("[ERROR] Download failed"), false)
          else
            let s := wfs s (removeTree s.fs T)
            let s := ev s .renameE
            if env.renameRaises then (pr s ("[ERROR] Download failed"), false)
            else (pr (wfs s (renameTree s.fs extracted T)) ("[OK] Downloaded and extracted"), true)
        else
          let s := ev s .renameE
          if env.renameRaises then (pr s ("[ERROR] Download failed"), false)
          else (pr (wfs s (renameTree s.fs extracted T)) ("[OK] Downloaded and extracted"), true)
      else (pr s ("[OK] Downloaded and extracted"), true)

/-- The `for d in dirs: d.mkdir(...)` loop of `setup_directories`; a
raised exception aborts the loop and propagates. -/
def mkdirs (env : Env) (ds : List Path) (s : St) : St × Except String Unit :=
  match ds with
  | [] => (s, .ok ())
  | d :: rest =>
    match mkdirOp env d s with
    | (s1, .error e) => (s1, .error e)
    | (s1, .ok _) => mkdirs env rest s1

/-- `setup_directories`: create the five required directories; there is
no try/except around the loop. -/
def setup_directories (env : Env) (T : Path) (s : St) : St × Except String Unit :=
  match mkdirs env (dirList T) s with
  | (s1, .error e) => (s1, .error e)
  | (s1, .ok _) => (pr s1 ("[OK] Directories created"), .ok ())

/-- `create_config`: copy the example config only when no config exists;
an existing config is only reported; when neither file exists nothing
happens.  The `shutil.copy` is not wrapped in try/except. -/
def create_config (env : Env) (T : Path) (s : St) : St × Except String Unit :=
  if !(pexists s.fs (configPath T)) && pexists s.fs (examplePath T) then
    match copyOp env (examplePath T) (configPath T) s with
    | (s1, .error e) => (s1, .error e)
    | (s1, .ok _) => (pr s1 ("[OK] Config created from example"), .ok ())
  else if pexists s.fs (configPath T) then
    (pr s ("[OK] Config already exists"), .ok ())
  else (s, .ok ())

/-- `install_dependencies`: a missing manifest is a warning; a failing
pip exit status (`CalledProcessError`) is caught and reported. -/
def install_dependencies (env : Env) (T : Path) (s : St) : St × Bool :=
  if !(pexists s.fs (reqPath T)) then
    (pr s ("[WARN] No requirements.txt found"), true)
  else
    let s := pr s ("[...] Installing dependencies...")
    let s := ev s .pipInstall
    if env.pipOk then (pr s ("[OK] Dependencies installed"), true)
    else (pr s ("[ERROR] pip install failed"), false)

/-- `check_ollama`: probe the local endpoint; a bare `except:` makes the
step total, failure is informational only. -/
def check_ollama (env : Env) (s : St) : St × Bool :=
  let s := ev s .ollamaProbe
  if env.ollamaOk then (pr s ("[OK] Ollama is running"), true)
  else
    (pr (pr s ("[INFO] Ollama not detected (optional - for local AI thinking)"))
      ("       Install from: https://ollama.ai"), false)

/-- `test_install`: run `me.py` with `timeout=10`; pass is reported when
the marker substring appears in stdout or the exit status is zero; any
exception (`except Exception`) is caught as a warning. -/
def test_install (env : Env) (T : Path) (s : St) : St × Bool :=
  let s := pr s ("[...] Testing installation...")
  let s := ev s (.runTest 10)
  if env.testRaises then (pr s ("[WARN] Test failed"), false)
  else if containsSub env.testStdout ("SYSTEM TEST") || env.testReturncode == 0 then
    (pr s ("[OK] Installation test passed"), true)
  else (pr s ("[WARN] Test output"), true)

/-- `start_daemon`: a missing daemon script is reported and skipped; the
platform-specific `subprocess.Popen` (new console window on Windows,
detached session elsewhere) is a single detached spawn here and is not
wrapped in try/except. -/
def start_daemon (env : Env) (T : Path) (s : St) : St × Except String Bool :=
  let s := pr s ("[...] Starting daemon...")
  if !(pexists s.fs (daemonPath T)) then
    (pr s ("[ERROR] daemon.py not found"), .ok false)
  else
    let s := ev s .spawnDaemon
    if env.popenRaises then (s, .error ("OSError"))
    else (pr s ("[OK] Daemon started"), .ok true)

/-- How a run of `main` ends. -/
inductive MainResult where
  | ok
  | exited (code : Nat)
  | raised (e : String)
deriving DecidableEq

/-- The final summary banner (abbreviated to its heading line). -/
def summaryMsg (T : Path) : String := "INSTALLATION COMPLETE " ++ pathStr T

/-- The tail of `main` after the smoke test: optional daemon launch, then
the summary print. -/
def finishSteps (env : Env) (T : Path) (s : St) : St × MainResult :=
  if env.startFlag then
    match start_daemon env T s with
    | (s1, .error e) => (s1, .raised e)
    | (s1, .ok _) => (pr s1 (summaryMsg T), .ok)
  else (pr s (summaryMsg T), .ok)

/-- The tail of `main` from the smoke test on. -/
def tailSteps (env : Env) (T : Path) (s : St) : St × MainResult :=
  match test_install env T s with
  | (s1, _) => finishSteps env T s1

/-- The part of `main` after source acquisition: directory and config
materialization, dependencies, Ollama probe, then `tailSteps`. -/
def afterAcquire (env : Env) (T : Path) (s : St) : St × MainResult :=
  match setup_directories env T s with
  | (s1, .error e) => (s1, .raised e)
  | (s1, .ok _) =>
    match create_config env T s1 with
    | (s2, .error e) => (s2, .raised e)
    | (s2, .ok _) =>
      let s3 := if env.noDeps then s2 else (install_dependencies env T s2).1
      let s4 := (check_ollama env s3).1
      tailSteps env T s4

/-- The source-acquisition branch of `main`.  Returns `some code` when
`sys.exit(code)` fires during acquisition. -/
def acquireStep (env : Env) (T : Path) (s : St) : St × Option Nat :=
  if markerPresent s.fs T then
    let s1 := pr s ("[OK] Claude already installed, updating...")
    let rg := check_git env s1
    if rg.2 && pexists rg.1.fs (gitMetaPath T) then
      let s2 := ev rg.1 .gitPull
      (wfs s2 (applyWrites T env.pullWrites s2.fs), none)
    else (rg.1, none)
  else
    let rg := check_git env s
    if rg.2 then
      let rc := clone_repo env T rg.1
      if rc.2 then (rc.1, none)
      else
        let s2 := pr rc.1 ("[INFO] Falling back to zip download...")
        let rd := download_zip env T s2
        (rd.1, if rd.2 then none else some 1)
    else
      let s2 := pr rg.1 ("[INFO] Git not found, using zip download...")
      let rd := download_zip env T s2
      (rd.1, if rd.2 then none else some 1)

/-- The body of `main` after a passed version check. -/
def mainBody (env : Env) (T : Path) (s : St) : St × MainResult :=
  let s1 := pr s ("[INFO] Installing to: " ++ pathStr T)
  let ra := acquireStep env T s1
  match ra.2 with
  | some c => (ra.1, .exited c)
  | none => afterAcquire env T ra.1

/-- `main`: banner, version check, acquisition, then the rest of the
pipeline, starting from a given filesystem. -/
def runMain (env : Env) (T : Path) (fs : FS) : St × MainResult :=
  let rp := check_python env ⟨fs, ["BANNER"], []⟩
  if rp.2 then mainBody env T rp.1 else (rp.1, .exited 1)

/-- All five required directories exist as directories. -/
def dirsAll (fs : FS) (T : Path) : Bool :=
  (dirList T).all (fun d => isDirAt fs d)

/-- Events belonging to source acquisition. -/
def isAcqEvent : Event → Bool
  | .gitClone => true
  | .gitPull => true
  | .httpDownload => true
  | .zipExtract => true
  | _ => false

/-- Directory-creation events. -/
def isMkdirEvent : Event → Bool
  | .mkdirE _ => true
  | _ => false


/-- Field order of `Env`: pyMajor, pyMinor, pyMicro, gitOk, cloneOk,
cloneFiles, downloadRaises, extractRaises, zipEntries, pullWrites,
mkdirRaises, copyRaises, rmtreeRaises, renameRaises, popenRaises, pipOk,
ollamaOk, testRaises, testStdout, testReturncode, startFlag, noDeps.
`envClone`: a benign world where git is present and the clone brings the
repository tree (marker, example config, git metadata, daemon script). -/
def envClone : Env :=
  ⟨3, 12, 1, true, true,
    [([], .dir), (["me.py"], .file ("agent")), (["config.example.py"], .file ("cfg")),
     ([".git"], .dir), (["daemon.py"], .file ("daemon"))],
    false, false, [], [], false, false, false, false, false, true, false, false, "", 0,
    false, true⟩

/-- A benign world with no git and nothing downloaded. -/
def envUpd : Env :=
  ⟨3, 12, 0, false, false, [], false, false, [], [], false, false, false, false, false,
    true, false, false, "", 0, false, true⟩

/-- A host running Python 2.7. -/
def envOldPy : Env :=
  ⟨2, 7, 18, false, false, [], false, false, [], [], false, false, false, false, false,
    true, false, false, "", 0, false, true⟩

/-- The archive download raises a network error. -/
def envDlFault : Env :=
  ⟨3, 12, 0, false, false, [], true, false, [], [], false, false, false, false, false,
    true, false, false, "", 0, false, true⟩

/-- `mkdir` raises an OS error (e.g. permission denied). -/
def envMkdirFault : Env :=
  ⟨3, 12, 0, false, false, [], false, false, [], [], true, false, false, false, false,
    true, false, false, "", 0, false, true⟩

/-- `shutil.copy` raises an OS error (e.g. disk full). -/
def envCopyFault : Env :=
  ⟨3, 12, 0, false, false, [], false, false, [], [], false, true, false, false, false,
    true, false, false, "", 0, false, true⟩

/-- `subprocess.Popen` raises an OS error; the --start flag is set. -/
def envPopenFault : Env :=
  ⟨3, 12, 0, false, false, [], false, false, [], [], false, false, false, false, true,
    true, false, false, "", 0, true, true⟩

/-- Extraction produces the expected folder but `shutil.rmtree` raises. -/
def envRmtreeFault : Env :=
  ⟨3, 12, 0, false, false, [], false, false, [(["claude-agent-main"], .dir)], [],
    false, false, true, false, false, true, false, false, "", 0, false, true⟩

/-- No git; the zip extraction produces the expected tree with marker. -/
def envZip : Env :=
  ⟨3, 12, 0, false, false, [], false, false,
    [(["claude-agent-main"], .dir), (["claude-agent-main", "me.py"], .file ("m"))],
    [], false, false, false, false, false, true, false, false, "", 0, false, true⟩

/-- A target directory with an existing install marker. -/
def fsMarker : FS :=
  [((["t"] : Path), Node.dir), ((["t", "me.py"] : Path), Node.file ("m"))]

/-- A target with marker and an example config but no config. -/
def fsMarkerExample : FS :=
  [((["t"] : Path), Node.dir), ((["t", "me.py"] : Path), Node.file ("m")),
   ((["t", "config.example.py"] : Path), Node.file ("c"))]

/-- A target containing a daemon script. -/
def fsDaemon : FS :=
  [((["t"] : Path), Node.dir), ((["t", "daemon.py"] : Path), Node.file ("d"))]

/-- A pre-existing partial target directory under a parent. -/
def fsPartial : FS :=
  [((["home"] : Path), Node.dir), ((["home", "claude-agent"] : Path), Node.dir)]


theorem lookupP_setNode_self (fs : FS) (p : Path) (n : Node) :
    lookupP (setNode fs p n) p = some n := by
  induction fs with
  | nil => simp [setNode, lookupP]
  | cons h t ih =>
    obtain ⟨q, m⟩ := h
    by_cases hq : q = p
    · subst hq; simp [setNode, lookupP]
    · simp [setNode, lookupP, hq, ih]

theorem lookupP_setNode_ne (fs : FS) (p q : Path) (n : Node) (h : q ≠ p) :
    lookupP (setNode fs p n) q = lookupP fs q := by
  induction fs with
  | nil => simp [setNode, lookupP, Ne.symm h]
  | cons hd t ih =>
    obtain ⟨r, m⟩ := hd
    by_cases hr : r = p
    · subst hr
      simp only [setNode, if_pos rfl, lookupP]
      have : ¬ (r = q) := fun hh => h hh.symm
      simp [this]
    · simp only [setNode, if_neg hr, lookupP]
      by_cases hrq : r = q
      · simp [hrq]
      · simp [hrq, ih]

theorem mem_prefixChain_self (p : Path) : p ∈ prefixChain p := by
  induction p with
  | nil => simp [prefixChain]
  | cons a t ih => simp [prefixChain]; exact ih

theorem ensureChain_writes (ps : List Path) (fs fs' : FS)
    (h : ensureChain fs ps = .ok fs') (q : Path) :
    lookupP fs' q = lookupP fs q ∨ lookupP fs' q = some .dir := by
  induction ps generalizing fs with
  | nil => simp [ensureChain] at h; subst h; exact Or.inl rfl
  | cons p rest ih =>
    simp only [ensureChain] at h
    cases hl : lookupP fs p with
    | none =>
      rw [hl] at h
      rcases ih _ h with h1 | h1
      · by_cases hq : q = p
        · subst hq; rw [h1, lookupP_setNode_self]; exact Or.inr rfl
        · rw [h1, lookupP_setNode_ne _ _ _ _ hq]; exact Or.inl rfl
      · exact Or.inr h1
    | some n =>
      cases n with
      | dir => rw [hl] at h; exact ih _ h
      | file c => rw [hl] at h; cases h

theorem ensureChain_mem (ps : List Path) (fs fs' : FS)
    (h : ensureChain fs ps = .ok fs') (p : Path) (hp : p ∈ ps) :
    isDirAt fs' p = true := by
  induction ps generalizing fs with
  | nil => cases hp
  | cons a rest ih =>
    simp only [ensureChain] at h
    rcases List.mem_cons.mp hp with rfl | hmem
    · cases hl : lookupP fs p with
      | none =>
        rw [hl] at h
        rcases ensureChain_writes _ _ _ h p with h1 | h1
        · rw [isDirAt, h1, lookupP_setNode_self]
        · rw [isDirAt, h1]
      | some n =>
        cases n with
        | dir =>
          rw [hl] at h
          rcases ensureChain_writes _ _ _ h p with h1 | h1
          · rw [isDirAt, h1, hl]
          · rw [isDirAt, h1]
        | file c => rw [hl] at h; cases h
    · cases hl : lookupP fs a with
      | none => rw [hl] at h; exact ih _ h hmem
      | some n =>
        cases n with
        | dir => rw [hl] at h; exact ih _ h hmem
        | file c => rw [hl] at h; cases h

theorem mkdirP_writes (fs fs' : FS) (p : Path) (h : mkdirP fs p = .ok fs') (q : Path) :
    lookupP fs' q = lookupP fs q ∨ lookupP fs' q = some .dir := by
  simp only [mkdirP] at h
  cases hl : lookupP fs p with
  | none => rw [hl] at h; exact ensureChain_writes _ _ _ h q
  | some n =>
    cases n with
    | dir => rw [hl] at h; cases h; exact Or.inl rfl
    | file c => rw [hl] at h; cases h

theorem mkdirP_makes (fs fs' : FS) (p : Path) (h : mkdirP fs p = .ok fs') :
    isDirAt fs' p = true := by
  simp only [mkdirP] at h
  cases hl : lookupP fs p with
  | none => rw [hl] at h; exact ensureChain_mem _ _ _ h p (mem_prefixChain_self p)
  | some n =>
    cases n with
    | dir => rw [hl] at h; cases h; rw [isDirAt, hl]
    | file c => rw [hl] at h; cases h

theorem mkdirP_pres (fs fs' : FS) (p : Path) (h : mkdirP fs p = .ok fs') (q : Path)
    (hq : isDirAt fs q = true) : isDirAt fs' q = true := by
  rcases mkdirP_writes _ _ _ h q with h1 | h1
  · rw [isDirAt, h1]; rw [isDirAt] at hq; exact hq
  · rw [isDirAt, h1]

theorem mkdirP_noop (fs : FS) (p : Path) (h : isDirAt fs p = true) :
    mkdirP fs p = .ok fs := by
  rw [isDirAt] at h
  rw [mkdirP]
  cases hl : lookupP fs p with
  | none => rw [hl] at h; cases h
  | some n => cases n with
    | dir => rfl
    | file c => rw [hl] at h; cases h


theorem mkdirs_writes (env : Env) (ds : List Path) (s s1 : St)
    (h : mkdirs env ds s = (s1, .ok ())) (q : Path) :
    lookupP s1.fs q = lookupP s.fs q ∨ lookupP s1.fs q = some .dir := by
  induction ds generalizing s with
  | nil => simp [mkdirs] at h; subst h; exact Or.inl rfl
  | cons d rest ih =>
    simp only [mkdirs, mkdirOp] at h
    by_cases hr : env.mkdirRaises
    · simp [hr] at h
    · simp only [hr, if_neg, Bool.false_eq_true, if_false] at h
      cases hm : mkdirP (ev s (.mkdirE d)).fs d with
      | error e => rw [hm] at h; simp at h
      | ok fs1 =>
        rw [hm] at h
        rcases ih _ h with h1 | h1
        · rcases mkdirP_writes _ _ _ hm q with h2 | h2
          · rw [h1]; simp only [wfs] at h2 ⊢; rw [h2]; exact Or.inl rfl
          · rw [h1]; simp only [wfs]; exact Or.inr h2
        · exact Or.inr h1

theorem mkdirs_mem (env : Env) (ds : List Path) (s s1 : St)
    (h : mkdirs env ds s = (s1, .ok ())) (d : Path) (hd : d ∈ ds) :
    isDirAt s1.fs d = true := by
  induction ds generalizing s with
  | nil => cases hd
  | cons a rest ih =>
    simp only [mkdirs, mkdirOp] at h
    by_cases hr : env.mkdirRaises
    · simp [hr] at h
    · simp only [hr, Bool.false_eq_true, if_false] at h
      cases hm : mkdirP (ev s (.mkdirE a)).fs a with
      | error e => rw [hm] at h; simp at h
      | ok fs1 =>
        rw [hm] at h
        rcases List.mem_cons.mp hd with rfl | hmem
        · have hmk : isDirAt (wfs (ev s (.mkdirE d)) fs1).fs d = true := by
            simpa [wfs] using mkdirP_makes _ _ _ hm
          rcases mkdirs_writes env rest _ _ h d with h1 | h1
          · rw [isDirAt, h1]; rw [isDirAt] at hmk
            exact hmk
          · rw [isDirAt, h1]
        · exact ih _ h hmem

theorem mkdirs_noop (env : Env) (ds : List Path) (s : St)
    (hall : ∀ d ∈ ds, isDirAt s.fs d = true) (hr : env.mkdirRaises = false) :
    mkdirs env ds s = (⟨s.fs, s.out, s.evs ++ ds.map Event.mkdirE⟩, .ok ()) := by
  induction ds generalizing s with
  | nil => simp [mkdirs]
  | cons d rest ih =>
    have hd : isDirAt s.fs d = true := hall d (List.mem_cons_self d rest)
    have hnoop : mkdirP (ev s (.mkdirE d)).fs d = .ok (ev s (.mkdirE d)).fs := by
      simpa [ev] using mkdirP_noop s.fs d hd
    simp only [mkdirs, mkdirOp, hr, Bool.false_eq_true, if_false, hnoop]
    have hrest := ih (s := wfs (ev s (.mkdirE d)) (ev s (.mkdirE d)).fs)
      (fun x hx => by simpa [wfs, ev] using hall x (List.mem_cons_of_mem d hx))
    simp only [wfs, ev] at hrest ⊢
    rw [hrest]
    simp

theorem setup_ok_dirs (env : Env) (T : Path) (s s1 : St)
    (h : setup_directories env T s = (s1, .ok ())) : dirsAll s1.fs T = true := by
  simp only [setup_directories] at h
  rcases hm : mkdirs env (dirList T) s with ⟨s2, r⟩
  rw [hm] at h
  cases r with
  | error e => simp at h
  | ok u =>
    cases u
    simp only [Prod.mk.injEq] at h
    obtain ⟨h1, -⟩ := h
    subst h1
    rw [dirsAll, List.all_eq_true]
    intro d hd
    have := mkdirs_mem env _ _ _ hm d hd
    simpa [pr] using this

theorem setup_writes (env : Env) (T : Path) (s s1 : St)
    (h : setup_directories env T s = (s1, .ok ())) (q : Path) :
    lookupP s1.fs q = lookupP s.fs q ∨ lookupP s1.fs q = some .dir := by
  simp only [setup_directories] at h
  rcases hm : mkdirs env (dirList T) s with ⟨s2, r⟩
  rw [hm] at h
  cases r with
  | error e => simp at h
  | ok u =>
    cases u
    simp only [Prod.mk.injEq] at h
    obtain ⟨h1, -⟩ := h
    subst h1
    have := mkdirs_writes env _ _ _ hm q
    simpa [pr] using this

theorem setup_noop (env : Env) (T : Path) (s : St)
    (hall : dirsAll s.fs T = true) (hr : env.mkdirRaises = false) :
    setup_directories env T s =
      (⟨s.fs, s.out ++ [("[OK] Directories created")],
        s.evs ++ (dirList T).map Event.mkdirE⟩, .ok ()) := by
  rw [dirsAll, List.all_eq_true] at hall
  simp only [setup_directories, mkdirs_noop env _ s (fun d hd => hall d hd) hr, pr]

theorem cc_cases (env : Env) (T : Path) (s : St) :
    (pexists s.fs (configPath T) = true ∧
      create_config env T s = (pr s ("[OK] Config already exists"), .ok ())) ∨
    (pexists s.fs (configPath T) = false ∧ pexists s.fs (examplePath T) = false ∧
      create_config env T s = (s, .ok ())) ∨
    (pexists s.fs (configPath T) = false ∧ pexists s.fs (examplePath T) = true ∧
      env.copyRaises = true ∧
      create_config env T s = (ev s .copyE, .error ("OSError"))) ∨
    (∃ c, pexists s.fs (configPath T) = false ∧
      lookupP s.fs (examplePath T) = some (.file c) ∧ env.copyRaises = false ∧
      create_config env T s =
        (pr (wfs (ev s .copyE) (setNode s.fs (configPath T) (.file c)))
          ("[OK] Config created from example"), .ok ())) ∨
    (pexists s.fs (configPath T) = false ∧
      lookupP s.fs (examplePath T) = some .dir ∧ env.copyRaises = false ∧
      create_config env T s = (ev s .copyE, .error ("IsADirectoryError"))) := by
  by_cases hc : pexists s.fs (configPath T) = true
  · left
    exact ⟨hc, by simp [create_config, hc]⟩
  · have hc2 : pexists s.fs (configPath T) = false := by
      simpa using hc
    by_cases he : pexists s.fs (examplePath T) = true
    · by_cases hr : env.copyRaises = true
      · right; right; left
        exact ⟨hc2, he, hr, by simp [create_config, hc2, he, copyOp, hr]⟩
      · have hr2 : env.copyRaises = false := by simpa using hr
        cases hn : lookupP s.fs (examplePath T) with
        | none => rw [pexists, hn] at he; simp at he
        | some n =>
          cases n with
          | dir =>
            right; right; right; right
            exact ⟨hc2, rfl, hr2, by simp [create_config, hc2, he, copyOp, hr2, ev, hn]⟩
          | file c =>
            right; right; right; left
            exact ⟨c, hc2, rfl, hr2, by simp [create_config, hc2, he, copyOp, hr2, ev, hn, wfs]⟩
    · have he2 : pexists s.fs (examplePath T) = false := by simpa using he
      right; left
      exact ⟨hc2, he2, by simp [create_config, hc2, he2]⟩

theorem cc_pres (env : Env) (T : Path) (s s1 : St) (r : Except String Unit)
    (h : create_config env T s = (s1, r)) (q : Path)
    (hq : isDirAt s.fs q = true) : isDirAt s1.fs q = true := by
  rcases cc_cases env T s with ⟨-, he⟩ | ⟨-, -, he⟩ | ⟨-, -, -, he⟩ |
    ⟨c, hcfg, -, -, he⟩ | ⟨-, -, -, he⟩ <;> rw [he] at h <;>
    obtain ⟨h1, -⟩ := Prod.mk.injEq .. ▸ h <;> subst h1
  · simpa [pr] using hq
  · exact hq
  · simpa [ev] using hq
  · have hne : q ≠ configPath T := by
      intro hqq
      rw [isDirAt] at hq
      rw [hqq] at hq
      rw [pexists] at hcfg
      cases hll : lookupP s.fs (configPath T) with
      | none => rw [hll] at hq; simp at hq
      | some m => rw [hll] at hcfg; simp at hcfg
    rw [isDirAt] at hq ⊢
    simp only [pr, wfs, ev]
    rw [lookupP_setNode_ne _ _ _ _ hne]
    exact hq
  · simpa [ev] using hq

theorem cc_ok_noex (env : Env) (T : Path) (s s1 : St)
    (h : create_config env T s = (s1, .ok ()))
    (hc : pexists s1.fs (configPath T) = false) :
    pexists s1.fs (examplePath T) = false := by
  rcases cc_cases env T s with ⟨hcfg, he⟩ | ⟨-, hex, he⟩ | ⟨-, -, -, he⟩ |
    ⟨c, -, -, -, he⟩ | ⟨-, -, -, he⟩ <;> rw [he] at h
  · obtain ⟨h1, -⟩ := Prod.mk.injEq .. ▸ h
    subst h1
    simp only [pr] at hc
    rw [hc] at hcfg
    cases hcfg
  · obtain ⟨h1, -⟩ := Prod.mk.injEq .. ▸ h
    subst h1
    exact hex
  · simp at h
  · obtain ⟨h1, -⟩ := Prod.mk.injEq .. ▸ h
    subst h1
    simp only [pr, wfs, ev, pexists, lookupP_setNode_self] at hc
    cases hc
  · simp at h

theorem id_cases (env : Env) (T : Path) (s : St) :
    (pexists s.fs (reqPath T) = false ∧
      install_dependencies env T s = (pr s ("[WARN] No requirements.txt found"), true)) ∨
    (pexists s.fs (reqPath T) = true ∧ env.pipOk = true ∧
      install_dependencies env T s =
        (pr (ev (pr s ("[...] Installing dependencies...")) .pipInstall)
          ("[OK] Dependencies installed"), true)) ∨
    (pexists s.fs (reqPath T) = true ∧ env.pipOk = false ∧
      install_dependencies env T s =
        (pr (ev (pr s ("[...] Installing dependencies...")) .pipInstall)
          ("[ERROR] pip install failed"), false)) := by
  by_cases hq : pexists s.fs (reqPath T) = true
  · by_cases hp : env.pipOk = true
    · right; left
      exact ⟨hq, hp, by simp [install_dependencies, hq, hp]⟩
    · right; right
      refine ⟨hq, by simpa using hp, ?_⟩
      simp only [install_dependencies, hq, Bool.not_true, Bool.false_eq_true, if_false]
      simp [Bool.not_eq_true] at hp
      simp [hp]
  · left
    have hq2 : pexists s.fs (reqPath T) = false := by simpa using hq
    exact ⟨hq2, by simp [install_dependencies, hq2]⟩

theorem ol_cases (env : Env) (s : St) :
    (env.ollamaOk = true ∧
      check_ollama env s = (pr (ev s .ollamaProbe) ("[OK] Ollama is running"), true)) ∨
    (env.ollamaOk = false ∧
      check_ollama env s =
        (pr (pr (ev s .ollamaProbe)
            ("[INFO] Ollama not detected (optional - for local AI thinking)"))
          ("       Install from: https://ollama.ai"), false)) := by
  by_cases ho : env.ollamaOk = true
  · left; exact ⟨ho, by simp [check_ollama, ho]⟩
  · right
    have ho2 : env.ollamaOk = false := by simpa using ho
    exact ⟨ho2, by simp [check_ollama, ho2]⟩

theorem ti_cases (env : Env) (T : Path) (s : St) :
    (env.testRaises = true ∧
      test_install env T s =
        (pr (ev (pr s ("[...] Testing installation...")) (.runTest 10))
          ("[WARN] Test failed"), false)) ∨
    (env.testRaises = false ∧
      (containsSub env.testStdout ("SYSTEM TEST") || env.testReturncode == 0) = true ∧
      test_install env T s =
        (pr (ev (pr s ("[...] Testing installation...")) (.runTest 10))
          ("[OK] Installation test passed"), true)) ∨
    (env.testRaises = false ∧
      (containsSub env.testStdout ("SYSTEM TEST") || env.testReturncode == 0) = false ∧
      test_install env T s =
        (pr (ev (pr s ("[...] Testing installation...")) (.runTest 10))
          ("[WARN] Test output"), true)) := by
  by_cases hr : env.testRaises = true
  · left; exact ⟨hr, by simp [test_install, hr]⟩
  · have hr2 : env.testRaises = false := by simpa using hr
    by_cases hc : (containsSub env.testStdout ("SYSTEM TEST") || env.testReturncode == 0) = true
    · right; left
      refine ⟨hr2, hc, ?_⟩
      simp only [test_install, hr2, Bool.false_eq_true, if_false]
      rw [if_pos hc]
    · right; right
      have hc2 : (containsSub env.testStdout ("SYSTEM TEST") || env.testReturncode == 0) = false := by
        simpa using hc
      refine ⟨hr2, hc2, ?_⟩
      simp only [test_install, hr2, Bool.false_eq_true, if_false]
      rw [if_neg (by simp [hc2])]

theorem sdm_cases (env : Env) (T : Path) (s : St) :
    (pexists s.fs (daemonPath T) = false ∧
      start_daemon env T s =
        (pr (pr s ("[...] Starting daemon...")) ("[ERROR] daemon.py not found"), .ok false)) ∨
    (pexists s.fs (daemonPath T) = true ∧ env.popenRaises = true ∧
      start_daemon env T s =
        (ev (pr s ("[...] Starting daemon...")) .spawnDaemon, .error ("OSError"))) ∨
    (pexists s.fs (daemonPath T) = true ∧ env.popenRaises = false ∧
      start_daemon env T s =
        (pr (ev (pr s ("[...] Starting daemon...")) .spawnDaemon)
          ("[OK] Daemon started"), .ok true)) := by
  by_cases hd : pexists s.fs (daemonPath T) = true
  · by_cases hp : env.popenRaises = true
    · right; left
      exact ⟨hd, hp, by simp [start_daemon, pr, hd, hp]⟩
    · right; right
      have hp2 : env.popenRaises = false := by simpa using hp
      exact ⟨hd, hp2, by simp [start_daemon, pr, hd, hp2]⟩
  · left
    have hd2 : pexists s.fs (daemonPath T) = false := by simpa using hd
    exact ⟨hd2, by simp [start_daemon, pr, hd2]⟩

theorem fin_cases (env : Env) (T : Path) (s : St) :
    (env.startFlag = false ∧ finishSteps env T s = (pr s (summaryMsg T), .ok)) ∨
    (env.startFlag = true ∧ pexists s.fs (daemonPath T) = false ∧
      finishSteps env T s =
        (pr (pr (pr s ("[...] Starting daemon...")) ("[ERROR] daemon.py not found"))
          (summaryMsg T), .ok)) ∨
    (env.startFlag = true ∧ pexists s.fs (daemonPath T) = true ∧ env.popenRaises = true ∧
      finishSteps env T s =
        (ev (pr s ("[...] Starting daemon...")) .spawnDaemon, .raised ("OSError"))) ∨
    (env.startFlag = true ∧ pexists s.fs (daemonPath T) = true ∧ env.popenRaises = false ∧
      finishSteps env T s =
        (pr (pr (ev (pr s ("[...] Starting daemon...")) .spawnDaemon)
            ("[OK] Daemon started")) (summaryMsg T), .ok)) := by
  by_cases hf : env.startFlag = true
  · rcases sdm_cases env T s with ⟨hd, he⟩ | ⟨hd, hp, he⟩ | ⟨hd, hp, he⟩
    · right; left
      exact ⟨hf, hd, by simp [finishSteps, hf, he]⟩
    · right; right; left
      exact ⟨hf, hd, hp, by simp [finishSteps, hf, he]⟩
    · right; right; right
      exact ⟨hf, hd, hp, by simp [finishSteps, hf, he]⟩
  · left
    have hf2 : env.startFlag = false := by simpa using hf
    exact ⟨hf2, by simp [finishSteps, hf2]⟩

theorem tail_eq (env : Env) (T : Path) (s : St) :
    tailSteps env T s = finishSteps env T (test_install env T s).1 := rfl

theorem fin_fs (env : Env) (T : Path) (s : St) : (finishSteps env T s).1.fs = s.fs := by
  rcases fin_cases env T s with ⟨-, he⟩ | ⟨-, -, he⟩ | ⟨-, -, -, he⟩ | ⟨-, -, -, he⟩ <;>
    rw [he] <;> simp [pr, ev]

theorem ti_fs (env : Env) (T : Path) (s : St) : (test_install env T s).1.fs = s.fs := by
  rcases ti_cases env T s with ⟨-, he⟩ | ⟨-, -, he⟩ | ⟨-, -, he⟩ <;>
    rw [he] <;> simp [pr, ev]

theorem tail_fs (env : Env) (T : Path) (s : St) : (tailSteps env T s).1.fs = s.fs := by
  rw [tail_eq, fin_fs, ti_fs]

theorem fin_no_exit (env : Env) (T : Path) (s : St) (c : Nat) :
    (finishSteps env T s).2 ≠ .exited c := by
  rcases fin_cases env T s with ⟨-, he⟩ | ⟨-, -, he⟩ | ⟨-, -, -, he⟩ | ⟨-, -, -, he⟩ <;>
    rw [he] <;> simp

theorem tail_no_exit (env : Env) (T : Path) (s : St) (c : Nat) :
    (tailSteps env T s).2 ≠ .exited c := by
  rw [tail_eq]
  exact fin_no_exit env T _ c

theorem fin_ok_summary (env : Env) (T : Path) (s : St)
    (h : (finishSteps env T s).2 = .ok) :
    summaryMsg T ∈ (finishSteps env T s).1.out := by
  rcases fin_cases env T s with ⟨-, he⟩ | ⟨-, -, he⟩ | ⟨-, -, -, he⟩ | ⟨-, -, -, he⟩ <;>
    rw [he] at h ⊢ <;> simp_all [pr, ev]

theorem tail_ok_summary (env : Env) (T : Path) (s : St)
    (h : (tailSteps env T s).2 = .ok) :
    summaryMsg T ∈ (tailSteps env T s).1.out := by
  rw [tail_eq] at h ⊢
  exact fin_ok_summary env T _ h

theorem fin_benign (env : Env) (T : Path) (s : St) (hp : env.popenRaises = false) :
    (finishSteps env T s).2 = .ok ∧ (finishSteps env T s).1.fs = s.fs := by
  refine ⟨?_, fin_fs env T s⟩
  rcases fin_cases env T s with ⟨-, he⟩ | ⟨-, -, he⟩ | ⟨-, -, hp2, he⟩ | ⟨-, -, -, he⟩ <;>
    rw [he] <;> simp_all

theorem tail_benign (env : Env) (T : Path) (s : St) (hp : env.popenRaises = false) :
    (tailSteps env T s).2 = .ok ∧ (tailSteps env T s).1.fs = s.fs := by
  rw [tail_eq]
  obtain ⟨h1, h2⟩ := fin_benign env T (test_install env T s).1 hp
  exact ⟨h1, by rw [h2, ti_fs]⟩

theorem mkdirOp_evs (env : Env) (d : Path) (s : St) :
    (mkdirOp env d s).1.evs = s.evs ++ [Event.mkdirE d] := by
  unfold mkdirOp
  by_cases hr : env.mkdirRaises = true
  · simp [hr, ev]
  · have hr2 : env.mkdirRaises = false := by simpa using hr
    simp only [hr2, Bool.false_eq_true, if_false]
    cases hm : mkdirP (ev s (.mkdirE d)).fs d with
    | error e => simp [ev]
    | ok fs1 => simp [ev, wfs]

theorem mkdirs_evs (env : Env) (ds : List Path) (s : St) :
    ∃ δ, (mkdirs env ds s).1.evs = s.evs ++ δ ∧
      ∀ x ∈ δ, isAcqEvent x = false := by
  induction ds generalizing s with
  | nil => exact ⟨[], by simp [mkdirs], by simp⟩
  | cons d rest ih =>
    rcases hop : mkdirOp env d s with ⟨s1, r1⟩
    have hevs : s1.evs = s.evs ++ [Event.mkdirE d] := by
      rw [← mkdirOp_evs env d s, hop]
    cases r1 with
    | error e =>
      refine ⟨[Event.mkdirE d], ?_, by simp [isAcqEvent]⟩
      simp [mkdirs, hop, hevs]
    | ok u =>
      obtain ⟨δ, hδ, hall⟩ := ih s1
      refine ⟨Event.mkdirE d :: δ, ?_, ?_⟩
      · simp only [mkdirs, hop]
        rw [hδ, hevs]
        simp
      · intro x hx
        rcases List.mem_cons.mp hx with rfl | hx2
        · simp [isAcqEvent]
        · exact hall x hx2

theorem setup_evs (env : Env) (T : Path) (s : St) :
    ∃ δ, (setup_directories env T s).1.evs = s.evs ++ δ ∧
      ∀ x ∈ δ, isAcqEvent x = false := by
  unfold setup_directories
  rcases hm : mkdirs env (dirList T) s with ⟨s1, r1⟩
  obtain ⟨δ, hδ, hall⟩ := mkdirs_evs env (dirList T) s
  rw [hm] at hδ
  cases r1 with
  | error e => exact ⟨δ, hδ, hall⟩
  | ok u => exact ⟨δ, by simpa [pr] using hδ, hall⟩

theorem cc_evs (env : Env) (T : Path) (s : St) :
    ∃ δ, (create_config env T s).1.evs = s.evs ++ δ ∧
      ∀ x ∈ δ, isAcqEvent x = false := by
  rcases cc_cases env T s with ⟨-, he⟩ | ⟨-, -, he⟩ | ⟨-, -, -, he⟩ |
    ⟨c, -, -, -, he⟩ | ⟨-, -, -, he⟩ <;> rw [he]
  · exact ⟨[], by simp [pr], by simp⟩
  · exact ⟨[], by simp, by simp⟩
  · exact ⟨[Event.copyE], by simp [ev], by simp [isAcqEvent]⟩
  · exact ⟨[Event.copyE], by simp [pr, wfs, ev], by simp [isAcqEvent]⟩
  · exact ⟨[Event.copyE], by simp [ev], by simp [isAcqEvent]⟩

theorem id_evs (env : Env) (T : Path) (s : St) :
    ∃ δ, (install_dependencies env T s).1.evs = s.evs ++ δ ∧
      ∀ x ∈ δ, isAcqEvent x = false := by
  rcases id_cases env T s with ⟨-, he⟩ | ⟨-, -, he⟩ | ⟨-, -, he⟩ <;> rw [he]
  · exact ⟨[], by simp [pr], by simp⟩
  · exact ⟨[Event.pipInstall], by simp [pr, ev], by simp [isAcqEvent]⟩
  · exact ⟨[Event.pipInstall], by simp [pr, ev], by simp [isAcqEvent]⟩

theorem ol_evs (env : Env) (s : St) :
    ∃ δ, (check_ollama env s).1.evs = s.evs ++ δ ∧
      ∀ x ∈ δ, isAcqEvent x = false := by
  rcases ol_cases env s with ⟨-, he⟩ | ⟨-, he⟩ <;> rw [he]
  · exact ⟨[Event.ollamaProbe], by simp [pr, ev], by simp [isAcqEvent]⟩
  · exact ⟨[Event.ollamaProbe], by simp [pr, ev], by simp [isAcqEvent]⟩

theorem ti_evs (env : Env) (T : Path) (s : St) :
    ∃ δ, (test_install env T s).1.evs = s.evs ++ δ ∧
      ∀ x ∈ δ, isAcqEvent x = false := by
  rcases ti_cases env T s with ⟨-, he⟩ | ⟨-, -, he⟩ | ⟨-, -, he⟩ <;> rw [he] <;>
    exact ⟨[Event.runTest 10], by simp [pr, ev], by simp [isAcqEvent]⟩

theorem fin_evs (env : Env) (T : Path) (s : St) :
    ∃ δ, (finishSteps env T s).1.evs = s.evs ++ δ ∧
      ∀ x ∈ δ, isAcqEvent x = false := by
  rcases fin_cases env T s with ⟨-, he⟩ | ⟨-, -, he⟩ | ⟨-, -, -, he⟩ | ⟨-, -, -, he⟩ <;>
    rw [he]
  · exact ⟨[], by simp [pr], by simp⟩
  · exact ⟨[], by simp [pr], by simp⟩
  · exact ⟨[Event.spawnDaemon], by simp [pr, ev], by simp [isAcqEvent]⟩
  · exact ⟨[Event.spawnDaemon], by simp [pr, ev], by simp [isAcqEvent]⟩

theorem tail_evs (env : Env) (T : Path) (s : St) :
    ∃ δ, (tailSteps env T s).1.evs = s.evs ++ δ ∧
      ∀ x ∈ δ, isAcqEvent x = false := by
  rw [tail_eq]
  obtain ⟨δ1, h1, ha1⟩ := ti_evs env T s
  obtain ⟨δ2, h2, ha2⟩ := fin_evs env T (test_install env T s).1
  refine ⟨δ1 ++ δ2, ?_, ?_⟩
  · rw [h2, h1, List.append_assoc]
  · intro x hx
    rcases List.mem_append.mp hx with hx1 | hx2
    · exact ha1 x hx1
    · exact ha2 x hx2

theorem ol_fs (env : Env) (s : St) : (check_ollama env s).1.fs = s.fs := by
  rcases ol_cases env s with ⟨-, he⟩ | ⟨-, he⟩ <;> rw [he] <;> simp [pr, ev]

theorem id_fs (env : Env) (T : Path) (s : St) :
    (install_dependencies env T s).1.fs = s.fs := by
  rcases id_cases env T s with ⟨-, he⟩ | ⟨-, -, he⟩ | ⟨-, -, he⟩ <;> rw [he] <;> simp [pr, ev]

theorem aa_evs (env : Env) (T : Path) (s : St) :
    ∃ δ, (afterAcquire env T s).1.evs = s.evs ++ δ ∧
      ∀ x ∈ δ, isAcqEvent x = false := by
  unfold afterAcquire
  rcases hsd : setup_directories env T s with ⟨sA, r1⟩
  obtain ⟨δ1, h1, ha1⟩ := setup_evs env T s
  rw [hsd] at h1
  dsimp only at h1
  cases r1 with
  | error e => exact ⟨δ1, h1, ha1⟩
  | ok u =>
    dsimp only
    rcases hcc : create_config env T sA with ⟨sB, r2⟩
    obtain ⟨δ2, h2, ha2⟩ := cc_evs env T sA
    rw [hcc] at h2
    dsimp only at h2
    cases r2 with
    | error e =>
      refine ⟨δ1 ++ δ2, ?_, ?_⟩
      · dsimp only
        rw [h2, h1, List.append_assoc]
      · intro x hx
        rcases List.mem_append.mp hx with hx1 | hx2
        · exact ha1 x hx1
        · exact ha2 x hx2
    | ok u2 =>
      dsimp only
      obtain ⟨δ3, h3, ha3⟩ :
          ∃ δ3, (if env.noDeps = true then sB else (install_dependencies env T sB).1).evs
              = sB.evs ++ δ3 ∧ ∀ x ∈ δ3, isAcqEvent x = false := by
        by_cases hnd : env.noDeps = true
        · exact ⟨[], by simp [hnd], by simp⟩
        · have hnd2 : env.noDeps = false := by simpa using hnd
          obtain ⟨δ3, h3, ha3⟩ := id_evs env T sB
          exact ⟨δ3, by simp [hnd2, h3], ha3⟩
      obtain ⟨δ4, h4, ha4⟩ := ol_evs env
        (if env.noDeps = true then sB else (install_dependencies env T sB).1)
      obtain ⟨δ5, h5, ha5⟩ := tail_evs env T
        (check_ollama env (if env.noDeps = true then sB else (install_dependencies env T sB).1)).1
      refine ⟨δ1 ++ (δ2 ++ (δ3 ++ (δ4 ++ δ5))), ?_, ?_⟩
      · rw [h5, h4, h3, h2, h1]
        simp [List.append_assoc]
      · intro x hx
        simp only [List.mem_append] at hx
        rcases hx with hx1 | hx2 | hx3 | hx4 | hx5
        · exact ha1 x hx1
        · exact ha2 x hx2
        · exact ha3 x hx3
        · exact ha4 x hx4
        · exact ha5 x hx5

theorem aa_no_exit (env : Env) (T : Path) (s : St) (c : Nat) :
    (afterAcquire env T s).2 ≠ .exited c := by
  unfold afterAcquire
  rcases hsd : setup_directories env T s with ⟨sA, r1⟩
  cases r1 with
  | error e => simp
  | ok u =>
    dsimp only
    rcases hcc : create_config env T sA with ⟨sB, r2⟩
    cases r2 with
    | error e => simp
    | ok u2 =>
      dsimp only
      exact tail_no_exit env T _ c

theorem aa_ok_summary (env : Env) (T : Path) (s : St)
    (h : (afterAcquire env T s).2 = .ok) :
    summaryMsg T ∈ (afterAcquire env T s).1.out := by
  unfold afterAcquire at h ⊢
  rcases hsd : setup_directories env T s with ⟨sA, r1⟩
  rw [hsd] at h
  cases r1 with
  | error e => simp at h
  | ok u =>
    dsimp only at h ⊢
    rcases hcc : create_config env T sA with ⟨sB, r2⟩
    rw [hcc] at h
    cases r2 with
    | error e => simp at h
    | ok u2 =>
      dsimp only at h ⊢
      exact tail_ok_summary env T _ h

theorem aa_ok_props (env : Env) (T : Path) (s s1 : St)
    (h : afterAcquire env T s = (s1, .ok)) :
    dirsAll s1.fs T = true ∧
      (pexists s1.fs (configPath T) = false → pexists s1.fs (examplePath T) = false) := by
  unfold afterAcquire at h
  rcases hsd : setup_directories env T s with ⟨sA, r1⟩
  rw [hsd] at h
  cases r1 with
  | error e => simp at h
  | ok u =>
    cases u
    dsimp only at h
    rcases hcc : create_config env T sA with ⟨sB, r2⟩
    rw [hcc] at h
    cases r2 with
    | error e => simp at h
    | ok u2 =>
      cases u2
      dsimp only at h
      have hda : dirsAll sA.fs T = true := setup_ok_dirs env T s sA hsd
      have hdb : dirsAll sB.fs T = true := by
        rw [dirsAll, List.all_eq_true] at hda ⊢
        intro d hd
        exact cc_pres env T sA sB _ hcc d (hda d hd)
      have hnoex := cc_ok_noex env T sA sB hcc
      have hfs : s1.fs = sB.fs := by
        have hh : (tailSteps env T (check_ollama env
            (if env.noDeps = true then sB else (install_dependencies env T sB).1)).1).1.fs
            = sB.fs := by
          rw [tail_fs, ol_fs]
          by_cases hnd : env.noDeps = true
          · simp [hnd]
          · have hnd2 : env.noDeps = false := by simpa using hnd
            simp [hnd2, id_fs]
        rw [← hh, h]
      rw [hfs]
      exact ⟨hdb, hnoex⟩

theorem dz_cases (env : Env) (T : Path) (s : St) :
    (env.downloadRaises = true ∧
      download_zip env T s =
        (pr (ev (pr s ("[...] Downloading " ++ repoZip)) .httpDownload)
          ("[ERROR] Download failed"), false)) ∨
    (env.downloadRaises = false ∧ env.extractRaises = true ∧
      download_zip env T s =
        (pr (ev (pr (ev (pr s ("[...] Downloading " ++ repoZip)) .httpDownload)
            ("[...] Extracting...")) .zipExtract) ("[ERROR] Download failed"), false)) ∨
    (env.downloadRaises = false ∧ env.extractRaises = false ∧
      pexists (applyWrites T.dropLast env.zipEntries s.fs)
        (T.dropLast ++ ["claude-agent-main"]) = false ∧
      download_zip env T s =
        (pr (wfs (ev (pr (ev (pr s ("[...] Downloading " ++ repoZip)) .httpDownload)
            ("[...] Extracting...")) .zipExtract)
          (applyWrites T.dropLast env.zipEntries s.fs)) ("[OK] Downloaded and extracted"),
          true)) ∨
    (env.downloadRaises = false ∧ env.extractRaises = false ∧
      pexists (applyWrites T.dropLast env.zipEntries s.fs)
        (T.dropLast ++ ["claude-agent-main"]) = true ∧
      pexists (applyWrites T.dropLast env.zipEntries s.fs) T = true ∧
      env.rmtreeRaises = true ∧
      (download_zip env T s).2 = false ∧
      (download_zip env T s).1.out =
        s.out ++ [("[...] Downloading " ++ repoZip), ("[...] Extracting..."),
          ("[ERROR] Download failed")] ∧
      (download_zip env T s).1.evs =
        s.evs ++ [.httpDownload, .zipExtract, .rmtreeE]) ∨
    (env.downloadRaises = false ∧ env.extractRaises = false ∧
      pexists (applyWrites T.dropLast env.zipEntries s.fs)
        (T.dropLast ++ ["claude-agent-main"]) = true ∧
      pexists (applyWrites T.dropLast env.zipEntries s.fs) T = true ∧
      env.rmtreeRaises = false ∧ env.renameRaises = true ∧
      (download_zip env T s).2 = false ∧
      (download_zip env T s).1.evs =
        s.evs ++ [.httpDownload, .zipExtract, .rmtreeE, .renameE] ∧
      ("[ERROR] Download failed") ∈ (download_zip env T s).1.out) ∨
    (env.downloadRaises = false ∧ env.extractRaises = false ∧
      pexists (applyWrites T.dropLast env.zipEntries s.fs)
        (T.dropLast ++ ["claude-agent-main"]) = true ∧
      pexists (applyWrites T.dropLast env.zipEntries s.fs) T = true ∧
      env.rmtreeRaises = false ∧ env.renameRaises = false ∧
      (download_zip env T s).2 = true ∧
      (download_zip env T s).1.evs =
        s.evs ++ [.httpDownload, .zipExtract, .rmtreeE, .renameE] ∧
      ("[OK] Downloaded and extracted") ∈ (download_zip env T s).1.out) ∨
    (env.downloadRaises = false ∧ env.extractRaises = false ∧
      pexists (applyWrites T.dropLast env.zipEntries s.fs)
        (T.dropLast ++ ["claude-agent-main"]) = true ∧
      pexists (applyWrites T.dropLast env.zipEntries s.fs) T = false ∧
      env.renameRaises = true ∧
      (download_zip env T s).2 = false ∧
      (download_zip env T s).1.evs = s.evs ++ [.httpDownload, .zipExtract, .renameE] ∧
      ("[ERROR] Download failed") ∈ (download_zip env T s).1.out) ∨
    (env.downloadRaises = false ∧ env.extractRaises = false ∧
      pexists (applyWrites T.dropLast env.zipEntries s.fs)
        (T.dropLast ++ ["claude-agent-main"]) = true ∧
      pexists (applyWrites T.dropLast env.zipEntries s.fs) T = false ∧
      env.renameRaises = false ∧
      (download_zip env T s).2 = true ∧
      (download_zip env T s).1.evs = s.evs ++ [.httpDownload, .zipExtract, .renameE] ∧
      ("[OK] Downloaded and extracted") ∈ (download_zip env T s).1.out) := by
  by_cases hdl : env.downloadRaises = true
  · left
    exact ⟨hdl, by simp [download_zip, hdl]⟩
  · have hdl2 : env.downloadRaises = false := by simpa using hdl
    by_cases hex : env.extractRaises = true
    · right; left
      exact ⟨hdl2, hex, by simp [download_zip, hdl2, hex]⟩
    · have hex2 : env.extractRaises = false := by simpa using hex
      by_cases hE : pexists (applyWrites T.dropLast env.zipEntries s.fs)
          (T.dropLast ++ ["claude-agent-main"]) = true
      · by_cases hT : pexists (applyWrites T.dropLast env.zipEntries s.fs) T = true
        · by_cases hrm : env.rmtreeRaises = true
          · right; right; right; left
            refine ⟨hdl2, hex2, hE, hT, hrm, ?_, ?_, ?_⟩ <;>
              simp [download_zip, hdl2, hex2, pr, ev, wfs, hE, hT, hrm]
          · have hrm2 : env.rmtreeRaises = false := by simpa using hrm
            by_cases hrn : env.renameRaises = true
            · right; right; right; right; left
              refine ⟨hdl2, hex2, hE, hT, hrm2, hrn, ?_, ?_, ?_⟩ <;>
                simp [download_zip, hdl2, hex2, pr, ev, wfs, hE, hT, hrm2, hrn]
            · have hrn2 : env.renameRaises = false := by simpa using hrn
              right; right; right; right; right; left
              refine ⟨hdl2, hex2, hE, hT, hrm2, hrn2, ?_, ?_, ?_⟩ <;>
                simp [download_zip, hdl2, hex2, pr, ev, wfs, hE, hT, hrm2, hrn2]
        · have hT2 : pexists (applyWrites T.dropLast env.zipEntries s.fs) T = false := by
            simpa using hT
          by_cases hrn : env.renameRaises = true
          · right; right; right; right; right; right; left
            refine ⟨hdl2, hex2, hE, hT2, hrn, ?_, ?_, ?_⟩ <;>
              simp [download_zip, hdl2, hex2, pr, ev, wfs, hE, hT2, hrn]
          · have hrn2 : env.renameRaises = false := by simpa using hrn
            right; right; right; right; right; right; right
            refine ⟨hdl2, hex2, hE, hT2, hrn2, ?_, ?_, ?_⟩ <;>
              simp [download_zip, hdl2, hex2, pr, ev, wfs, hE, hT2, hrn2]
      · have hE2 : pexists (applyWrites T.dropLast env.zipEntries s.fs)
            (T.dropLast ++ ["claude-agent-main"]) = false := by simpa using hE
        right; right; left
        exact ⟨hdl2, hex2, hE2, by simp [download_zip, hdl2, hex2, pr, ev, wfs, hE2]⟩

theorem dz_false_err (env : Env) (T : Path) (s : St)
    (h : (download_zip env T s).2 = false) :
    ("[ERROR] Download failed") ∈ (download_zip env T s).1.out := by
  rcases dz_cases env T s with ⟨-, he⟩ | ⟨-, -, he⟩ | ⟨-, -, -, he⟩ |
    ⟨-, -, -, -, -, -, ho, -⟩ | ⟨-, -, -, -, -, -, -, -, ho⟩ |
    ⟨-, -, -, -, -, -, hb, -, -⟩ | ⟨-, -, -, -, -, -, -, ho⟩ |
    ⟨-, -, -, -, -, hb, -, -⟩
  · rw [he]; simp [pr, ev]
  · rw [he]; simp [pr, ev]
  · rw [he] at h; simp at h
  · rw [ho]; simp [pr, ev]
  · exact ho
  · rw [hb] at h; cases h
  · exact ho
  · rw [hb] at h; cases h

theorem dz_download_ev (env : Env) (T : Path) (s : St) :
    Event.httpDownload ∈ (download_zip env T s).1.evs := by
  rcases dz_cases env T s with ⟨-, he⟩ | ⟨-, -, he⟩ | ⟨-, -, -, he⟩ |
    ⟨-, -, -, -, -, -, -, hv⟩ | ⟨-, -, -, -, -, -, -, hv, -⟩ |
    ⟨-, -, -, -, -, -, -, hv, -⟩ | ⟨-, -, -, -, -, -, hv, -⟩ |
    ⟨-, -, -, -, -, -, hv, -⟩
  · rw [he]; simp [pr, ev]
  · rw [he]; simp [pr, ev]
  · rw [he]; simp [pr, ev, wfs]
  · rw [hv]; simp
  · rw [hv]; simp
  · rw [hv]; simp
  · rw [hv]; simp
  · rw [hv]; simp

theorem dz_no_mkdir (env : Env) (T : Path) (s : St) (p : Path)
    (h : Event.mkdirE p ∈ (download_zip env T s).1.evs) :
    Event.mkdirE p ∈ s.evs := by
  rcases dz_cases env T s with ⟨-, he⟩ | ⟨-, -, he⟩ | ⟨-, -, -, he⟩ |
    ⟨-, -, -, -, -, -, -, hv⟩ | ⟨-, -, -, -, -, -, -, hv, -⟩ |
    ⟨-, -, -, -, -, -, -, hv, -⟩ | ⟨-, -, -, -, -, -, hv, -⟩ |
    ⟨-, -, -, -, -, -, hv, -⟩ <;>
    first
      | (rw [he] at h; simp [pr, ev, wfs] at h; exact h)
      | (rw [hv] at h; simp at h; exact h)

theorem cl_cases (env : Env) (T : Path) (s : St) :
    (env.cloneOk = true ∧
      clone_repo env T s =
        (pr (wfs (ev (pr s ("[...] Cloning " ++ repoURL)) .gitClone)
          (applyWrites T env.cloneFiles (setNode s.fs T .dir)))
          ("[OK] Repository cloned"), true)) ∨
    (env.cloneOk = false ∧
      clone_repo env T s =
        (pr (ev (pr s ("[...] Cloning " ++ repoURL)) .gitClone)
          ("[ERROR] Git clone failed"), false)) := by
  by_cases hc : env.cloneOk = true
  · left; exact ⟨hc, by simp [clone_repo, hc, pr, ev, wfs]⟩
  · right
    have hc2 : env.cloneOk = false := by simpa using hc
    exact ⟨hc2, by simp [clone_repo, hc2, pr, ev]⟩

theorem cl_no_mkdir (env : Env) (T : Path) (s : St) (p : Path)
    (h : Event.mkdirE p ∈ (clone_repo env T s).1.evs) :
    Event.mkdirE p ∈ s.evs := by
  rcases cl_cases env T s with ⟨-, he⟩ | ⟨-, he⟩ <;> rw [he] at h <;>
    simp [pr, ev, wfs] at h <;> exact h

theorem applyWrites_nil (base : Path) (fs : FS) : applyWrites base [] fs = fs := rfl

theorem acq_marker_cases (env : Env) (T : Path) (s : St)
    (hmk : markerPresent s.fs T = true) :
    ((env.gitOk && pexists s.fs (gitMetaPath T)) = true ∧
      acquireStep env T s =
        (wfs (ev (ev (pr s ("[OK] Claude already installed, updating...")) .gitVersion)
            .gitPull) (applyWrites T env.pullWrites s.fs), none)) ∨
    ((env.gitOk && pexists s.fs (gitMetaPath T)) = false ∧
      acquireStep env T s =
        (ev (pr s ("[OK] Claude already installed, updating...")) .gitVersion, none)) := by
  by_cases hg : (env.gitOk && pexists s.fs (gitMetaPath T)) = true
  · left
    exact ⟨hg, by simp [acquireStep, hmk, check_git, ev, pr, wfs, hg]⟩
  · right
    have hg2 : (env.gitOk && pexists s.fs (gitMetaPath T)) = false := by simpa using hg
    refine ⟨hg2, ?_⟩
    simp only [acquireStep, hmk, if_true, check_git]
    rw [if_neg]
    simp only [ev, pr]
    simp [hg2]

theorem acq_fresh_git_cloneok (env : Env) (T : Path) (s : St)
    (hmk : markerPresent s.fs T = false) (hg : env.gitOk = true)
    (hc : env.cloneOk = true) :
    acquireStep env T s = ((clone_repo env T (ev s .gitVersion)).1, none) := by
  have h2 : (clone_repo env T (ev s .gitVersion)).2 = true := by
    rcases cl_cases env T (ev s .gitVersion) with ⟨-, he⟩ | ⟨hc2, -⟩
    · rw [he]
    · rw [hc] at hc2; cases hc2
  simp [acquireStep, hmk, check_git, hg, h2]

theorem acq_fresh_git_clonefail (env : Env) (T : Path) (s : St)
    (hmk : markerPresent s.fs T = false) (hg : env.gitOk = true)
    (hc : env.cloneOk = false) :
    acquireStep env T s =
      ((download_zip env T (pr (clone_repo env T (ev s .gitVersion)).1
          ("[INFO] Falling back to zip download..."))).1,
        if (download_zip env T (pr (clone_repo env T (ev s .gitVersion)).1
            ("[INFO] Falling back to zip download..."))).2 = true then none else some 1) := by
  have h2 : (clone_repo env T (ev s .gitVersion)).2 = false := by
    rcases cl_cases env T (ev s .gitVersion) with ⟨hc2, -⟩ | ⟨-, he⟩
    · rw [hc] at hc2; cases hc2
    · rw [he]
  simp [acquireStep, hmk, check_git, hg, h2]

theorem acq_fresh_nogit (env : Env) (T : Path) (s : St)
    (hmk : markerPresent s.fs T = false) (hg : env.gitOk = false) :
    acquireStep env T s =
      ((download_zip env T (pr (ev s .gitVersion)
          ("[INFO] Git not found, using zip download..."))).1,
        if (download_zip env T (pr (ev s .gitVersion)
            ("[INFO] Git not found, using zip download..."))).2 = true then none
        else some 1) := by
  simp [acquireStep, hmk, check_git, hg]

theorem acq_exit_props (env : Env) (T : Path) (s : St) (c : Nat)
    (h : (acquireStep env T s).2 = some c) :
    c = 1 ∧ markerPresent s.fs T = false ∧
      ("[ERROR] Download failed") ∈ (acquireStep env T s).1.out ∧
      (∀ p, Event.mkdirE p ∈ (acquireStep env T s).1.evs → Event.mkdirE p ∈ s.evs) := by
  by_cases hmk : markerPresent s.fs T = true
  · rcases acq_marker_cases env T s hmk with ⟨-, he⟩ | ⟨-, he⟩ <;>
      rw [he] at h <;> simp at h
  · have hmk2 : markerPresent s.fs T = false := by simpa using hmk
    by_cases hg : env.gitOk = true
    · by_cases hc : env.cloneOk = true
      · rw [acq_fresh_git_cloneok env T s hmk2 hg hc] at h
        simp at h
      · have hc2 : env.cloneOk = false := by simpa using hc
        have he := acq_fresh_git_clonefail env T s hmk2 hg hc2
        rw [he] at h ⊢
        by_cases hb : (download_zip env T (pr (clone_repo env T (ev s .gitVersion)).1
            ("[INFO] Falling back to zip download..."))).2 = true
        · rw [if_pos hb] at h; simp at h
        · have hb2 : (download_zip env T (pr (clone_repo env T (ev s .gitVersion)).1
              ("[INFO] Falling back to zip download..."))).2 = false := by simpa using hb
          rw [hb2] at h
          simp only [Bool.false_eq_true, if_false] at h
          have hc1 : c = 1 := by simpa using h.symm
          subst hc1
          refine ⟨rfl, hmk2, ?_, ?_⟩
          · simpa using dz_false_err env T _ hb2
          · intro p hp
            simp only at hp
            have h1 := dz_no_mkdir env T _ p hp
            simp only [pr] at h1
            have h2 := cl_no_mkdir env T _ p h1
            simp only [ev, List.mem_append] at h2
            rcases h2 with h2 | h2
            · exact h2
            · simp at h2
    · have hg2 : env.gitOk = false := by simpa using hg
      have he := acq_fresh_nogit env T s hmk2 hg2
      rw [he] at h ⊢
      by_cases hb : (download_zip env T (pr (ev s .gitVersion)
          ("[INFO] Git not found, using zip download..."))).2 = true
      · rw [if_pos hb] at h; simp at h
      · have hb2 : (download_zip env T (pr (ev s .gitVersion)
            ("[INFO] Git not found, using zip download..."))).2 = false := by simpa using hb
        rw [hb2] at h
        simp only [Bool.false_eq_true, if_false] at h
        have hc1 : c = 1 := by simpa using h.symm
        subst hc1
        refine ⟨rfl, hmk2, ?_, ?_⟩
        · simpa using dz_false_err env T _ hb2
        · intro p hp
          simp only at hp
          have h1 := dz_no_mkdir env T _ p hp
          simp only [pr, ev, List.mem_append] at h1
          rcases h1 with h1 | h1
          · exact h1
          · simp at h1

theorem rm_below (env : Env) (T : Path) (fs : FS) (h : belowMinB env = true) :
    runMain env T fs =
      (pr ⟨fs, ["BANNER"], []⟩ ("[ERROR] Python 3.10+ required. You have "
          ++ toString env.pyMajor ++ "." ++ toString env.pyMinor), .exited 1) := by
  simp [runMain, check_python, h]

theorem rm_above (env : Env) (T : Path) (fs : FS) (h : belowMinB env = false) :
    runMain env T fs =
      mainBody env T (pr ⟨fs, ["BANNER"], []⟩ ("[OK] Python " ++ toString env.pyMajor
        ++ "." ++ toString env.pyMinor ++ "." ++ toString env.pyMicro)) := by
  simp [runMain, check_python, h]

theorem mb_exit_props (env : Env) (T : Path) (s : St) (c : Nat)
    (h : (mainBody env T s).2 = .exited c) :
    c = 1 ∧ markerPresent s.fs T = false ∧
      ("[ERROR] Download failed") ∈ (mainBody env T s).1.out ∧
      (∀ p, Event.mkdirE p ∈ (mainBody env T s).1.evs → Event.mkdirE p ∈ s.evs) := by
  unfold mainBody at h ⊢
  dsimp only at h ⊢
  cases ho : (acquireStep env T (pr s ("[INFO] Installing to: " ++ pathStr T))).2 with
  | none =>
    rw [ho] at h
    dsimp only at h
    exact absurd h (aa_no_exit env T _ c)
  | some c2 =>
    rw [ho] at h
    dsimp only at h ⊢
    have hcc : c = c2 := by
      have := h
      simp at this
      exact this.symm
    subst hcc
    obtain ⟨h1, h2, h3, h4⟩ := acq_exit_props env T _ c ho
    refine ⟨h1, by simpa [pr] using h2, h3, ?_⟩
    intro p hp
    have := h4 p hp
    simpa [pr] using this

theorem mb_ok_summary (env : Env) (T : Path) (s : St)
    (h : (mainBody env T s).2 = .ok) :
    summaryMsg T ∈ (mainBody env T s).1.out := by
  unfold mainBody at h ⊢
  dsimp only at h ⊢
  cases ho : (acquireStep env T (pr s ("[INFO] Installing to: " ++ pathStr T))).2 with
  | none =>
    rw [ho] at h
    dsimp only at h ⊢
    exact aa_ok_summary env T _ h
  | some c2 =>
    rw [ho] at h
    dsimp only at h
    simp at h

theorem mb_ok_decomp (env : Env) (T : Path) (s s1 : St)
    (h : mainBody env T s = (s1, .ok)) :
    ∃ sq, afterAcquire env T sq = (s1, .ok) := by
  unfold mainBody at h
  dsimp only at h
  cases ho : (acquireStep env T (pr s ("[INFO] Installing to: " ++ pathStr T))).2 with
  | none =>
    rw [ho] at h
    dsimp only at h
    exact ⟨_, h⟩
  | some c2 =>
    rw [ho] at h
    dsimp only at h
    simp at h

theorem main_exit_props (env : Env) (T : Path) (fs : FS) (c : Nat)
    (h : (runMain env T fs).2 = .exited c) :
    c = 1 ∧ (belowMinB env = true ∨
      (markerPresent fs T = false ∧
        ("[ERROR] Download failed") ∈ (runMain env T fs).1.out ∧
        (∀ p, Event.mkdirE p ∉ (runMain env T fs).1.evs))) := by
  by_cases hb : belowMinB env = true
  · rw [rm_below env T fs hb] at h
    simp at h
    exact ⟨h.symm, Or.inl hb⟩
  · have hb2 : belowMinB env = false := by simpa using hb
    rw [rm_above env T fs hb2] at h ⊢
    obtain ⟨h1, h2, h3, h4⟩ := mb_exit_props env T _ c h
    refine ⟨h1, Or.inr ⟨by simpa [pr] using h2, h3, ?_⟩⟩
    intro p hp
    have := h4 p hp
    simp [pr] at this

theorem main_ok_summary (env : Env) (T : Path) (fs : FS)
    (h : (runMain env T fs).2 = .ok) :
    summaryMsg T ∈ (runMain env T fs).1.out := by
  by_cases hb : belowMinB env = true
  · rw [rm_below env T fs hb] at h
    simp at h
  · have hb2 : belowMinB env = false := by simpa using hb
    rw [rm_above env T fs hb2] at h ⊢
    exact mb_ok_summary env T _ h

theorem main_ok_decomp (env : Env) (T : Path) (fs : FS) (s1 : St)
    (h : runMain env T fs = (s1, .ok)) :
    ∃ sq, afterAcquire env T sq = (s1, .ok) := by
  by_cases hb : belowMinB env = true
  · rw [rm_below env T fs hb] at h
    simp at h
  · have hb2 : belowMinB env = false := by simpa using hb
    rw [rm_above env T fs hb2] at h
    exact mb_ok_decomp env T _ s1 h

theorem aa_benign (env : Env) (T : Path) (s : St)
    (hm : env.mkdirRaises = false) (hp : env.popenRaises = false)
    (hd : dirsAll s.fs T = true)
    (hce : pexists s.fs (configPath T) = false → pexists s.fs (examplePath T) = false) :
    (afterAcquire env T s).2 = .ok ∧ (afterAcquire env T s).1.fs = s.fs := by
  unfold afterAcquire
  rw [setup_noop env T s hd hm]
  dsimp only
  have hccn : create_config env T ⟨s.fs, s.out ++ [("[OK] Directories created")],
      s.evs ++ (dirList T).map Event.mkdirE⟩ =
      (if pexists s.fs (configPath T) = true then
        (pr ⟨s.fs, s.out ++ [("[OK] Directories created")],
          s.evs ++ (dirList T).map Event.mkdirE⟩ ("[OK] Config already exists"), .ok ())
      else (⟨s.fs, s.out ++ [("[OK] Directories created")],
          s.evs ++ (dirList T).map Event.mkdirE⟩, .ok ())) := by
    rcases cc_cases env T ⟨s.fs, s.out ++ [("[OK] Directories created")],
        s.evs ++ (dirList T).map Event.mkdirE⟩ with
      ⟨hc, he⟩ | ⟨hc, -, he⟩ | ⟨hc, hex, -, -⟩ | ⟨cx, hc, hex, -, -⟩ | ⟨hc, hex, -, -⟩
    · rw [he]
      simp only at hc
      rw [if_pos hc]
    · rw [he]
      simp only at hc
      rw [if_neg (by simp [hc])]
    · exfalso
      simp only at hc hex
      have := hce hc
      rw [this] at hex
      cases hex
    · exfalso
      simp only at hc hex
      have := hce hc
      rw [pexists, hex] at this
      simp at this
    · exfalso
      simp only at hc hex
      have := hce hc
      rw [pexists, hex] at this
      simp at this
  rw [hccn]
  by_cases hcfg : pexists s.fs (configPath T) = true
  · rw [if_pos hcfg]
    dsimp only
    have hA := tail_benign env T (check_ollama env (if env.noDeps = true then
        (pr ⟨s.fs, s.out ++ [("[OK] Directories created")],
          s.evs ++ (dirList T).map Event.mkdirE⟩ ("[OK] Config already exists"))
        else (install_dependencies env T (pr ⟨s.fs, s.out ++ [("[OK] Directories created")],
          s.evs ++ (dirList T).map Event.mkdirE⟩ ("[OK] Config already exists"))).1)).1 hp
    refine ⟨hA.1, ?_⟩
    rw [hA.2, ol_fs]
    by_cases hnd : env.noDeps = true
    · simp [hnd, pr]
    · have hnd2 : env.noDeps = false := by simpa using hnd
      simp [hnd2, id_fs, pr]
  · rw [if_neg hcfg]
    dsimp only
    have hA := tail_benign env T (check_ollama env (if env.noDeps = true then
        (⟨s.fs, s.out ++ [("[OK] Directories created")],
          s.evs ++ (dirList T).map Event.mkdirE⟩ : St)
        else (install_dependencies env T ⟨s.fs, s.out ++ [("[OK] Directories created")],
          s.evs ++ (dirList T).map Event.mkdirE⟩).1)).1 hp
    refine ⟨hA.1, ?_⟩
    rw [hA.2, ol_fs]
    by_cases hnd : env.noDeps = true
    · simp [hnd]
    · have hnd2 : env.noDeps = false := by simpa using hnd
      simp [hnd2, id_fs]

theorem dz_evs_list (env : Env) (T : Path) (s : St) :
    ∃ δ, (download_zip env T s).1.evs = s.evs ++ δ ∧
      ∀ x ∈ δ, x = Event.httpDownload ∨ x = Event.zipExtract ∨
        x = Event.rmtreeE ∨ x = Event.renameE := by
  rcases dz_cases env T s with ⟨-, he⟩ | ⟨-, -, he⟩ | ⟨-, -, -, he⟩ |
    ⟨-, -, -, -, -, -, -, hv⟩ | ⟨-, -, -, -, -, -, -, hv, -⟩ |
    ⟨-, -, -, -, -, -, -, hv, -⟩ | ⟨-, -, -, -, -, -, hv, -⟩ |
    ⟨-, -, -, -, -, -, hv, -⟩
  · exact ⟨[.httpDownload], by rw [he]; simp [pr, ev], by simp⟩
  · exact ⟨[.httpDownload, .zipExtract], by rw [he]; simp [pr, ev], by simp⟩
  · exact ⟨[.httpDownload, .zipExtract], by rw [he]; simp [pr, ev, wfs], by simp⟩
  · exact ⟨[.httpDownload, .zipExtract, .rmtreeE], by rw [hv], by simp⟩
  · exact ⟨[.httpDownload, .zipExtract, .rmtreeE, .renameE], by rw [hv], by simp⟩
  · exact ⟨[.httpDownload, .zipExtract, .rmtreeE, .renameE], by rw [hv], by simp⟩
  · exact ⟨[.httpDownload, .zipExtract, .renameE], by rw [hv], by simp⟩
  · exact ⟨[.httpDownload, .zipExtract, .renameE], by rw [hv], by simp⟩

/-- Claim C2: if the Configuration File (config.py) already exists in the
target, create_config leaves the whole filesystem byte-identical (the
file is never overwritten, regardless of the template content), performs
no copy operation, and only prints the "already exists" line; the
template is copied only when the config file does not exist. -/
theorem claim_C2 (env : Env) (T : Path) (fs : FS) (o : List String)
    (e : List Event) (n : Node) (h : lookupP fs (configPath T) = some n) :
    create_config env T ⟨fs, o, e⟩ =
      (⟨fs, o ++ [("[OK] Config already exists")], e⟩, .ok ()) := by
  have hc : pexists fs (configPath T) = true := by rw [pexists, h]; rfl
  rcases cc_cases env T ⟨fs, o, e⟩ with ⟨-, he⟩ | ⟨hc2, -⟩ | ⟨hc2, -⟩ |
    ⟨c, hc2, -⟩ | ⟨hc2, -⟩
  · rw [he]; rfl
  · simp only at hc2; rw [hc] at hc2; cases hc2
  · simp only at hc2; rw [hc] at hc2; cases hc2
  · simp only at hc2; rw [hc] at hc2; cases hc2
  · simp only at hc2; rw [hc] at hc2; cases hc2

/-- Witness for C2 at a concrete target whose config.py holds user
edits and whose template differs. -/
theorem claim_C2_witness :
    create_config envClone ["t"]
        ⟨[((["t", "config.py"] : Path), Node.file ("user edits")),
          ((["t", "config.example.py"] : Path), Node.file ("template"))], [], []⟩ =
      (⟨[((["t", "config.py"] : Path), Node.file ("user edits")),
          ((["t", "config.example.py"] : Path), Node.file ("template"))],
        [("[OK] Config already exists")], []⟩, .ok ()) :=
  claim_C2 envClone ["t"] _ [] [] (Node.file ("user edits")) (by decide)

/-- Claim C10: when neither config.py nor config.example.py exists,
create_config is a complete no-op: no print, no filesystem change, no
external operation, and it returns normally (the pipeline continues). -/
theorem claim_C10 (env : Env) (T : Path) (fs : FS) (o : List String)
    (e : List Event) (hc : lookupP fs (configPath T) = none)
    (he : lookupP fs (examplePath T) = none) :
    create_config env T ⟨fs, o, e⟩ = (⟨fs, o, e⟩, .ok ()) := by
  have hc2 : pexists fs (configPath T) = false := by rw [pexists, hc]; rfl
  have he2 : pexists fs (examplePath T) = false := by rw [pexists, he]; rfl
  rcases cc_cases env T ⟨fs, o, e⟩ with ⟨hcx, -⟩ | ⟨-, -, hq⟩ | ⟨-, hex, -⟩ |
    ⟨c, -, hex, -⟩ | ⟨-, hex, -⟩
  · simp only at hcx; rw [hc2] at hcx; cases hcx
  · exact hq
  · simp only at hex; rw [he2] at hex; cases hex
  · rw [he] at hex; cases hex
  · rw [he] at hex; cases hex

/-- Witness for C10: an empty target directory. -/
theorem claim_C10_witness :
    create_config envClone ["t"] ⟨[], [], []⟩ = (⟨[], [], []⟩, .ok ()) :=
  claim_C10 envClone ["t"] [] [] [] rfl rfl

/-- Claim C6: the version gate of check_python is exactly the
lexicographic test (major, minor) below (3, 10); a failing version makes
main exit with status 1 right after the error print (no fallback), and a
passing version continues into the pipeline body. -/
theorem claim_C6 (env : Env) (T : Path) (fs : FS) :
    (belowMinB env = true ↔ lexBelow env.pyMajor env.pyMinor 3 10) ∧
    (belowMinB env = true →
      runMain env T fs =
        (pr ⟨fs, ["BANNER"], []⟩ ("[ERROR] Python 3.10+ required. You have "
          ++ toString env.pyMajor ++ "." ++ toString env.pyMinor), .exited 1)) ∧
    (belowMinB env = false →
      runMain env T fs =
        mainBody env T (pr ⟨fs, ["BANNER"], []⟩ ("[OK] Python "
          ++ toString env.pyMajor ++ "." ++ toString env.pyMinor ++ "."
          ++ toString env.pyMicro))) := by
  refine ⟨?_, rm_below env T fs, rm_above env T fs⟩
  simp only [belowMinB, lexBelow, Bool.or_eq_true, Bool.and_eq_true,
    decide_eq_true_eq, beq_iff_eq]

/-- Witness for C6: Python 2.7 exits with status 1; Python 3.12
proceeds into the pipeline body. -/
theorem claim_C6_witness :
    (runMain envOldPy ["t"] [] =
      (pr ⟨[], ["BANNER"], []⟩ ("[ERROR] Python 3.10+ required. You have "
        ++ toString envOldPy.pyMajor ++ "." ++ toString envOldPy.pyMinor),
        .exited 1)) ∧
    (runMain envClone ["t"] [] =
      mainBody envClone ["t"] (pr ⟨[], ["BANNER"], []⟩ ("[OK] Python "
        ++ toString envClone.pyMajor ++ "." ++ toString envClone.pyMinor ++ "."
        ++ toString envClone.pyMicro))) :=
  ⟨(claim_C6 envOldPy ["t"] []).2.1 (by decide),
   (claim_C6 envClone ["t"] []).2.2 (by decide)⟩

/-- Claim C1 (amended): the explicit `sys.exit` aborts happen with status
1 and only in two cases — version check failure, or (with no Installation
Marker) source acquisition failing both paths, in which case the download
error has been reported and no directory materialization has been
attempted; every run that ends normally reaches the final summary.  (An
unhandled exception escaping an unwrapped step is a third, distinct abort
mode; see the counterexample.) -/
theorem claim_C1 (env : Env) (T : Path) (fs : FS) (c : Nat) :
    ((runMain env T fs).2 = .exited c →
      c = 1 ∧ (belowMinB env = true ∨
        (markerPresent fs T = false ∧
          ("[ERROR] Download failed") ∈ (runMain env T fs).1.out ∧
          ∀ p, Event.mkdirE p ∉ (runMain env T fs).1.evs))) ∧
    ((runMain env T fs).2 = .ok → summaryMsg T ∈ (runMain env T fs).1.out) ∧
    (belowMinB env = true → (runMain env T fs).2 = .exited 1) := by
  refine ⟨main_exit_props env T fs c, main_ok_summary env T fs, fun h => ?_⟩
  rw [rm_below env T fs h]

/-- Counterexample to C1 as stated: with the host Python supported and
acquisition never failing (the marker is present, so no acquisition is
attempted at all), an OS error raised by `mkdir` inside directory
materialization escapes `main` uncaught — the interpreter aborts with a
traceback and non-zero status, a case outside the two permitted ones,
and the final summary is never printed. -/
theorem claim_C1_cex :
    (runMain envMkdirFault ["t"] fsMarker).2 = .raised ("OSError") ∧
    belowMinB envMkdirFault = false ∧
    ("[ERROR] Download failed") ∉ (runMain envMkdirFault ["t"] fsMarker).1.out ∧
    summaryMsg ["t"] ∉ (runMain envMkdirFault ["t"] fsMarker).1.out := by
  decide

/-- Witness for C1: a failed download exits after reporting the error,
and a successful zip-fallback run reaches the final summary. -/
theorem claim_C1_witness :
    ("[ERROR] Download failed") ∈ (runMain envDlFault ["t"] []).1.out ∧
    summaryMsg ["t"] ∈ (runMain envZip ["t"] []).1.out := by
  constructor
  · have h := (claim_C1 envDlFault ["t"] [] 1).1 (by decide)
    rcases h.2 with hb | hb
    · exact absurd hb (by decide)
    · exact hb.2.1
  · exact (claim_C1 envZip ["t"] [] 1).2.1 (by decide)

/-- Claim C3 (amended): the steps that wrap their external operations in
try/except — the archive download (network, extraction, remove, rename)
and the smoke test — convert every oracle fault into a reported
non-fatal outcome; but directory materialization (`mkdir`), config
materialization (`shutil.copy`) and the daemon launch (`Popen`) are not
wrapped, and an OS fault there surfaces as an uncaught error at the step
boundary. -/
theorem claim_C3 :
    (∀ (env : Env) (T : Path) (s : St), env.downloadRaises = true →
      (download_zip env T s).2 = false ∧
        ("[ERROR] Download failed") ∈ (download_zip env T s).1.out) ∧
    (∀ (env : Env) (T : Path) (s : St), env.testRaises = true →
      (test_install env T s).2 = false ∧
        ("[WARN] Test failed") ∈ (test_install env T s).1.out) ∧
    (setup_directories envMkdirFault ["t"] ⟨fsMarker, [], []⟩).2 = .error ("OSError") ∧
    (create_config envCopyFault ["t"] ⟨fsMarkerExample, [], []⟩).2 = .error ("OSError") ∧
    (start_daemon envPopenFault ["t"] ⟨fsDaemon, [], []⟩).2 = .error ("OSError") := by
  refine ⟨?_, ?_, rfl, rfl, rfl⟩
  · intro env T s h
    rcases dz_cases env T s with ⟨-, he⟩ | ⟨hdl, -⟩ | ⟨hdl, -⟩ | ⟨hdl, -⟩ |
      ⟨hdl, -⟩ | ⟨hdl, -⟩ | ⟨hdl, -⟩ | ⟨hdl, -⟩
    · rw [he]
      exact ⟨rfl, by simp [pr, ev]⟩
    all_goals rw [h] at hdl; cases hdl
  · intro env T s h
    rcases ti_cases env T s with ⟨-, he⟩ | ⟨hr, -⟩ | ⟨hr, -⟩
    · rw [he]
      exact ⟨rfl, by simp [pr, ev]⟩
    all_goals rw [h] at hr; cases hr

/-- Counterexample to C3 as stated: an OS error raised by `shutil.copy`
during config materialization crosses the step boundary uncaught — it is
not converted into any of the three outcome levels, and it is not one of
the two deliberate fatal exits (the run aborts with a traceback, without
reaching the summary and without any download failure). -/
theorem claim_C3_cex :
    (runMain envCopyFault ["t"] fsMarkerExample).2 = .raised ("OSError") ∧
    belowMinB envCopyFault = false ∧
    ("[ERROR] Download failed") ∉ (runMain envCopyFault ["t"] fsMarkerExample).1.out ∧
    summaryMsg ["t"] ∉ (runMain envCopyFault ["t"] fsMarkerExample).1.out := by
  decide

/-- Witness for C3: a concrete failing download is caught and reported. -/
theorem claim_C3_witness :
    (download_zip envDlFault ["t"] ⟨[], [], []⟩).2 = false :=
  (claim_C3.1 envDlFault ["t"] ⟨[], [], []⟩ rfl).1

theorem no_clone_after_dz (env : Env) (T : Path) (s : St)
    (h : Event.gitClone ∉ s.evs) :
    Event.gitClone ∉ (download_zip env T s).1.evs := by
  intro hmem
  obtain ⟨δ, hδ, hall⟩ := dz_evs_list env T s
  rw [hδ] at hmem
  rcases List.mem_append.mp hmem with h1 | h1
  · exact h h1
  · rcases hall _ h1 with h2 | h2 | h2 | h2 <;> cases h2

/-- Claim C4: with no git on the host and no Installation Marker, the
pipeline falls back to the archive download (the download is attempted,
no clone is ever attempted), and it exits — with status 1, after
reporting the download error — only if that archive download also
fails. -/
theorem claim_C4 (env : Env) (T : Path) (fs : FS) (c : Nat)
    (hv : belowMinB env = false) (hg : env.gitOk = false)
    (hmk : markerPresent fs T = false) :
    Event.httpDownload ∈ (runMain env T fs).1.evs ∧
    Event.gitClone ∉ (runMain env T fs).1.evs ∧
    ((runMain env T fs).2 = .exited c →
      c = 1 ∧ ("[ERROR] Download failed") ∈ (runMain env T fs).1.out) := by
  rw [rm_above env T fs hv]
  unfold mainBody
  dsimp only
  have hmk2 : markerPresent (pr (pr (⟨fs, ["BANNER"], []⟩ : St)
      ("[OK] Python " ++ toString env.pyMajor ++ "." ++ toString env.pyMinor ++ "."
        ++ toString env.pyMicro)) ("[INFO] Installing to: " ++ pathStr T)).fs T = false := by
    simpa [pr] using hmk
  have he := acq_fresh_nogit env T _ hmk2 hg
  rw [he]
  dsimp only
  have hnc : Event.gitClone ∉ (download_zip env T (pr (ev (pr (pr
      (⟨fs, ["BANNER"], []⟩ : St) ("[OK] Python " ++ toString env.pyMajor ++ "."
        ++ toString env.pyMinor ++ "." ++ toString env.pyMicro))
      ("[INFO] Installing to: " ++ pathStr T)) .gitVersion)
      ("[INFO] Git not found, using zip download..."))).1.evs := by
    apply no_clone_after_dz
    simp [pr, ev]
  by_cases hb : (download_zip env T (pr (ev (pr (pr (⟨fs, ["BANNER"], []⟩ : St)
      ("[OK] Python " ++ toString env.pyMajor ++ "." ++ toString env.pyMinor ++ "."
        ++ toString env.pyMicro)) ("[INFO] Installing to: " ++ pathStr T)) .gitVersion)
      ("[INFO] Git not found, using zip download..."))).2 = true
  · rw [if_pos hb]
    dsimp only
    refine ⟨?_, ?_, ?_⟩
    · obtain ⟨δ, hδ, -⟩ := aa_evs env T _
      rw [hδ]
      exact List.mem_append_left _ (dz_download_ev env T _)
    · intro hmem
      obtain ⟨δ, hδ, hall⟩ := aa_evs env T _
      rw [hδ] at hmem
      rcases List.mem_append.mp hmem with h1 | h1
      · exact hnc h1
      · have := hall _ h1
        simp [isAcqEvent] at this
    · intro hx
      exact absurd hx (aa_no_exit env T _ c)
  · have hb2 : (download_zip env T (pr (ev (pr (pr (⟨fs, ["BANNER"], []⟩ : St)
        ("[OK] Python " ++ toString env.pyMajor ++ "." ++ toString env.pyMinor ++ "."
          ++ toString env.pyMicro)) ("[INFO] Installing to: " ++ pathStr T)) .gitVersion)
        ("[INFO] Git not found, using zip download..."))).2 = false := by simpa using hb
    rw [hb2, if_neg Bool.false_ne_true]
    dsimp only
    refine ⟨dz_download_ev env T _, hnc, ?_⟩
    intro hx
    have hc1 : c = 1 := by simpa using hx.symm
    subst hc1
    exact ⟨rfl, dz_false_err env T _ hb2⟩

/-- Witness for C4: no git, empty target, the zip fallback succeeds. -/
theorem claim_C4_witness :
    Event.httpDownload ∈ (runMain envZip ["t"] []).1.evs ∧
    Event.gitClone ∉ (runMain envZip ["t"] []).1.evs := by
  have h := claim_C4 envZip ["t"] [] 1 (by decide) (by decide) (by decide)
  exact ⟨h.1, h.2.1⟩

/-- Claim C7: the smoke test runs the entry script with the bounded
10-second timeout and touches no files; the "test passed" line is
printed exactly when the marker substring appears in the captured stdout
or the exit status is zero; any other outcome prints a warning instead;
and regardless of the test outcome the tail of the pipeline goes on to
print the final summary (absent a daemon-launch fault). -/
theorem claim_C7 (env : Env) (T : Path) (fs : FS) :
    Event.runTest 10 ∈ (test_install env T ⟨fs, [], []⟩).1.evs ∧
    (test_install env T ⟨fs, [], []⟩).1.fs = fs ∧
    (("[OK] Installation test passed") ∈ (test_install env T ⟨fs, [], []⟩).1.out ↔
      env.testRaises = false ∧
        (containsSub env.testStdout ("SYSTEM TEST") = true ∨ env.testReturncode = 0)) ∧
    (env.testRaises = true →
      ("[WARN] Test failed") ∈ (test_install env T ⟨fs, [], []⟩).1.out) ∧
    (∀ (o : List String) (e : List Event) (fs2 : FS),
      env.startFlag = false ∨ env.popenRaises = false →
      (tailSteps env T ⟨fs2, o, e⟩).2 = .ok ∧
        summaryMsg T ∈ (tailSteps env T ⟨fs2, o, e⟩).1.out) := by
  refine ⟨?_, ?_, ?_, ?_, ?_⟩
  · rcases ti_cases env T ⟨fs, [], []⟩ with ⟨-, he⟩ | ⟨-, -, he⟩ | ⟨-, -, he⟩ <;>
      rw [he] <;> simp [pr, ev]
  · exact ti_fs env T ⟨fs, [], []⟩
  · rcases ti_cases env T ⟨fs, [], []⟩ with ⟨hr, he⟩ | ⟨hr, hc, he⟩ | ⟨hr, hc, he⟩ <;>
      rw [he]
    · simp only [pr, ev]
      constructor
      · intro hmem
        simp at hmem
      · rintro ⟨hr2, -⟩
        rw [hr] at hr2
        cases hr2
    · simp only [pr, ev]
      constructor
      · intro _
        refine ⟨hr, ?_⟩
        rcases Bool.or_eq_true .. |>.mp hc with h1 | h1
        · exact Or.inl h1
        · exact Or.inr (by simpa using h1)
      · intro _
        simp
    · simp only [pr, ev]
      constructor
      · intro hmem
        simp at hmem
      · rintro ⟨-, hor⟩
        exfalso
        rcases hor with h1 | h1
        · rw [Bool.or_eq_false_iff] at hc
          rw [hc.1] at h1
          cases h1
        · rw [Bool.or_eq_false_iff] at hc
          have := hc.2
          rw [h1] at this
          simp at this
  · intro hr
    rcases ti_cases env T ⟨fs, [], []⟩ with ⟨-, he⟩ | ⟨hr2, -⟩ | ⟨hr2, -⟩
    · rw [he]; simp [pr, ev]
    · rw [hr] at hr2; cases hr2
    · rw [hr] at hr2; cases hr2
  · intro o e fs2 hflag
    rcases hflag with hf | hp
    · rw [tail_eq]
      rcases fin_cases env T (test_install env T ⟨fs2, o, e⟩).1 with
        ⟨-, he⟩ | ⟨hf2, -⟩ | ⟨hf2, -⟩ | ⟨hf2, -⟩
      · rw [he]
        exact ⟨rfl, by simp [pr]⟩
      · rw [hf] at hf2; cases hf2
      · rw [hf] at hf2; cases hf2
      · rw [hf] at hf2; cases hf2
    · obtain ⟨h1, -⟩ := tail_benign env T ⟨fs2, o, e⟩ hp
      exact ⟨h1, tail_ok_summary env T ⟨fs2, o, e⟩ h1⟩

/-- Witness for C7: with zero exit status the pass line is printed, and
with no daemon launch the tail prints the summary. -/
theorem claim_C7_witness :
    ("[OK] Installation test passed") ∈
      (test_install envClone ["t"] ⟨[], [], []⟩).1.out ∧
    (tailSteps envClone ["t"] ⟨[], [], []⟩).2 = .ok := by
  have h := claim_C7 envClone ["t"] []
  exact ⟨h.2.2.1.mpr ⟨rfl, Or.inr rfl⟩,
    (h.2.2.2.2 [] [] [] (Or.inl rfl)).1⟩

/-- Claim C8: with the Installation Marker present but git unavailable or
the .git metadata absent, the pipeline performs no source acquisition at
all — no pull, no clone, no download, no extraction appears in the whole
run — and it proceeds, with the filesystem untouched, directly into the
setup steps. -/
theorem claim_C8 (env : Env) (T : Path) (fs : FS)
    (hv : belowMinB env = false) (hmk : markerPresent fs T = true)
    (hng : env.gitOk = false ∨ pexists fs (gitMetaPath T) = false) :
    runMain env T fs = afterAcquire env T
      ⟨fs, ["BANNER", "[OK] Python " ++ toString env.pyMajor ++ "."
          ++ toString env.pyMinor ++ "." ++ toString env.pyMicro,
        "[INFO] Installing to: " ++ pathStr T,
        "[OK] Claude already installed, updating..."], [Event.gitVersion]⟩ ∧
    Event.gitPull ∉ (runMain env T fs).1.evs ∧
    Event.gitClone ∉ (runMain env T fs).1.evs ∧
    Event.httpDownload ∉ (runMain env T fs).1.evs ∧
    Event.zipExtract ∉ (runMain env T fs).1.evs := by
  rw [rm_above env T fs hv]
  unfold mainBody
  dsimp only
  have hmk2 : markerPresent (pr (pr (⟨fs, ["BANNER"], []⟩ : St)
      ("[OK] Python " ++ toString env.pyMajor ++ "." ++ toString env.pyMinor ++ "."
        ++ toString env.pyMicro)) ("[INFO] Installing to: " ++ pathStr T)).fs T = true := by
    simpa [pr] using hmk
  rcases acq_marker_cases env T _ hmk2 with ⟨hgt, -⟩ | ⟨-, he⟩
  · exfalso
    simp only [pr, Bool.and_eq_true] at hgt
    rcases hng with h1 | h1
    · rw [h1] at hgt; exact absurd hgt.1 (by simp)
    · rw [h1] at hgt; exact absurd hgt.2 (by simp)
  · rw [he]
    dsimp only
    have hst : (ev (pr (pr (pr (⟨fs, ["BANNER"], []⟩ : St)
        ("[OK] Python " ++ toString env.pyMajor ++ "." ++ toString env.pyMinor ++ "."
          ++ toString env.pyMicro)) ("[INFO] Installing to: " ++ pathStr T))
        ("[OK] Claude already installed, updating...")) Event.gitVersion) =
        ⟨fs, ["BANNER", "[OK] Python " ++ toString env.pyMajor ++ "."
            ++ toString env.pyMinor ++ "." ++ toString env.pyMicro,
          "[INFO] Installing to: " ++ pathStr T,
          "[OK] Claude already installed, updating..."], [Event.gitVersion]⟩ := by
      simp [pr, ev]
    rw [hst]
    refine ⟨rfl, ?_, ?_, ?_, ?_⟩ <;>
      · intro hmem
        obtain ⟨δ, hδ, hall⟩ := aa_evs env T ⟨fs, ["BANNER", "[OK] Python "
            ++ toString env.pyMajor ++ "." ++ toString env.pyMinor ++ "."
            ++ toString env.pyMicro, "[INFO] Installing to: " ++ pathStr T,
          "[OK] Claude already installed, updating..."], [Event.gitVersion]⟩
        rw [hδ] at hmem
        rcases List.mem_append.mp hmem with h1 | h1
        · simp at h1
        · have := hall _ h1
          simp [isAcqEvent] at this

/-- Witness for C8: marker present, git absent — the run equals the
setup pipeline on the untouched filesystem and never pulls. -/
theorem claim_C8_witness :
    Event.gitPull ∉ (runMain envUpd ["t"] fsMarker).1.evs ∧
    Event.httpDownload ∉ (runMain envUpd ["t"] fsMarker).1.evs := by
  have h := claim_C8 envUpd ["t"] fsMarker (by decide) (by decide) (Or.inl rfl)
  exact ⟨h.2.1, h.2.2.2.1⟩

/-- Claim C9 (amended): the archive fallback reports success exactly when
no operation inside the step raises — download, extraction, and the
conditional remove/rename; in particular when the expected extracted
folder is absent it performs no remove and no rename, leaves the
extraction result in place and still reports success; and a pre-existing
Target Directory is removed only when the extracted folder exists. -/
theorem claim_C9 (env : Env) (T : Path) (s : St) :
    ((download_zip env T s).2 = true ↔
      env.downloadRaises = false ∧ env.extractRaises = false ∧
        (pexists (applyWrites T.dropLast env.zipEntries s.fs)
            (T.dropLast ++ ["claude-agent-main"]) = true →
          ((pexists (applyWrites T.dropLast env.zipEntries s.fs) T = true →
              env.rmtreeRaises = false) ∧ env.renameRaises = false))) ∧
    (env.downloadRaises = false → env.extractRaises = false →
      pexists (applyWrites T.dropLast env.zipEntries s.fs)
        (T.dropLast ++ ["claude-agent-main"]) = false →
      (download_zip env T s).2 = true ∧
        ("[OK] Downloaded and extracted") ∈ (download_zip env T s).1.out ∧
        (download_zip env T s).1.fs = applyWrites T.dropLast env.zipEntries s.fs ∧
        Event.rmtreeE ∉ (download_zip env T s).1.evs.drop s.evs.length ∧
        Event.renameE ∉ (download_zip env T s).1.evs.drop s.evs.length) ∧
    (Event.rmtreeE ∈ (download_zip env T s).1.evs → Event.rmtreeE ∈ s.evs ∨
      (pexists (applyWrites T.dropLast env.zipEntries s.fs)
          (T.dropLast ++ ["claude-agent-main"]) = true ∧
        pexists (applyWrites T.dropLast env.zipEntries s.fs) T = true)) := by
  refine ⟨?_, ?_, ?_⟩
  · rcases dz_cases env T s with ⟨hdl, he⟩ | ⟨hdl, hex, he⟩ | ⟨hdl, hex, hE, he⟩ |
      ⟨hdl, hex, hE, hT, hrm, hb, ho, hv⟩ | ⟨hdl, hex, hE, hT, hrm, hrn, hb, hv, ho⟩ |
      ⟨hdl, hex, hE, hT, hrm, hrn, hb, hv, ho⟩ | ⟨hdl, hex, hE, hT, hrn, hb, hv, ho⟩ |
      ⟨hdl, hex, hE, hT, hrn, hb, hv, ho⟩
    · rw [he]; simp [hdl]
    · rw [he]; simp [hdl, hex]
    · rw [he]; simp [hdl, hex, hE]
    · simp [hb, hdl, hex, hE, hT, hrm]
    · simp [hb, hdl, hex, hE, hT, hrm, hrn]
    · simp [hb, hdl, hex, hE, hT, hrm, hrn]
    · simp [hb, hdl, hex, hE, hT, hrn]
    · simp [hb, hdl, hex, hE, hT, hrn]
  · intro hdl0 hex0 hE0
    rcases dz_cases env T s with ⟨hdl, he⟩ | ⟨hdl, hex, he⟩ | ⟨hdl, hex, hE, he⟩ |
      ⟨hdl, hex, hE, hT, hrm, hb, ho, hv⟩ | ⟨hdl, hex, hE, hT, hrm, hrn, hb, hv, ho⟩ |
      ⟨hdl, hex, hE, hT, hrm, hrn, hb, hv, ho⟩ | ⟨hdl, hex, hE, hT, hrn, hb, hv, ho⟩ |
      ⟨hdl, hex, hE, hT, hrn, hb, hv, ho⟩
    · rw [hdl0] at hdl; cases hdl
    · rw [hex0] at hex; cases hex
    · rw [he]
      refine ⟨rfl, by simp [pr, ev, wfs], by simp [pr, ev, wfs], ?_, ?_⟩ <;>
        · simp only [pr, ev, wfs]
          rw [List.append_assoc, List.drop_left]
          simp
    · rw [hE0] at hE; cases hE
    · rw [hE0] at hE; cases hE
    · rw [hE0] at hE; cases hE
    · rw [hE0] at hE; cases hE
    · rw [hE0] at hE; cases hE
  · intro hmem
    rcases dz_cases env T s with ⟨hdl, he⟩ | ⟨hdl, hex, he⟩ | ⟨hdl, hex, hE, he⟩ |
      ⟨hdl, hex, hE, hT, hrm, hb, ho, hv⟩ | ⟨hdl, hex, hE, hT, hrm, hrn, hb, hv, ho⟩ |
      ⟨hdl, hex, hE, hT, hrm, hrn, hb, hv, ho⟩ | ⟨hdl, hex, hE, hT, hrn, hb, hv, ho⟩ |
      ⟨hdl, hex, hE, hT, hrn, hb, hv, ho⟩
    · rw [he] at hmem
      simp [pr, ev] at hmem
      exact Or.inl hmem
    · rw [he] at hmem
      simp [pr, ev] at hmem
      exact Or.inl hmem
    · rw [he] at hmem
      simp [pr, ev, wfs] at hmem
      exact Or.inl hmem
    · exact Or.inr ⟨hE, hT⟩
    · exact Or.inr ⟨hE, hT⟩
    · exact Or.inr ⟨hE, hT⟩
    · rw [hv] at hmem
      simp at hmem
      exact Or.inl hmem
    · rw [hv] at hmem
      simp at hmem
      exact Or.inl hmem

/-- Counterexample to C9 as stated: the download and the extraction both
raise no exception and the expected folder is produced, yet the step
reports failure, because the remove of the pre-existing Target Directory
raises inside the same try block. -/
theorem claim_C9_cex :
    (download_zip envRmtreeFault ["home", "claude-agent"] ⟨fsPartial, [], []⟩).2 = false ∧
    envRmtreeFault.downloadRaises = false ∧
    envRmtreeFault.extractRaises = false ∧
    ("[OK] Downloaded and extracted") ∉
      (download_zip envRmtreeFault ["home", "claude-agent"] ⟨fsPartial, [], []⟩).1.out ∧
    ("[ERROR] Download failed") ∈
      (download_zip envRmtreeFault ["home", "claude-agent"] ⟨fsPartial, [], []⟩).1.out := by
  decide

/-- Witness for C9: an extraction that does not produce the expected
folder still reports success, with no remove and no rename. -/
theorem claim_C9_witness :
    (download_zip envUpd ["t"] ⟨[], [], []⟩).2 = true ∧
    Event.rmtreeE ∉ (download_zip envUpd ["t"] ⟨[], [], []⟩).1.evs.drop 0 :=
  ⟨((claim_C9 envUpd ["t"] ⟨[], [], []⟩).2.1 rfl rfl (by decide)).1,
   ((claim_C9 envUpd ["t"] ⟨[], [], []⟩).2.1 rfl rfl (by decide)).2.2.2.1⟩

theorem run2_marker (env : Env) (T : Path) (s : St)
    (hmk : markerPresent s.fs T = true)
    (hm : env.mkdirRaises = false) (hp : env.popenRaises = false)
    (hw : env.pullWrites = [])
    (hd : dirsAll s.fs T = true)
    (hce : pexists s.fs (configPath T) = false → pexists s.fs (examplePath T) = false) :
    (acquireStep env T s).2 = none ∧
    (afterAcquire env T (acquireStep env T s).1).2 = .ok ∧
    (afterAcquire env T (acquireStep env T s).1).1.fs = s.fs := by
  rcases acq_marker_cases env T s hmk with ⟨-, he⟩ | ⟨-, he⟩
  · have hfs1 : (acquireStep env T s).1.fs = s.fs := by
      rw [he]
      simp [wfs, hw, applyWrites_nil]
    obtain ⟨hok, hfs⟩ := aa_benign env T (acquireStep env T s).1 hm hp
      (by rw [hfs1]; exact hd) (by rw [hfs1]; exact hce)
    exact ⟨by rw [he], hok, by rw [hfs, hfs1]⟩
  · have hfs1 : (acquireStep env T s).1.fs = s.fs := by
      rw [he]
      simp [ev, pr]
    obtain ⟨hok, hfs⟩ := aa_benign env T (acquireStep env T s).1 hm hp
      (by rw [hfs1]; exact hd) (by rw [hfs1]; exact hce)
    exact ⟨by rw [he], hok, by rw [hfs, hfs1]⟩

/-- Claim C5: running the pipeline a second time on the same target is
equivalent to running it once — given a first run that completed
normally and left the Installation Marker, and with the update pull
excepted (modelled as the pull writing nothing), the second run
completes normally and leaves the filesystem exactly as the first run
left it; in particular the five Required Subdirectories exist after both
runs and the Configuration File is byte-identical to its post-first-run
state. -/
theorem claim_C5 (env : Env) (T : Path) (fs : FS) (s1 : St)
    (h1 : runMain env T fs = (s1, .ok))
    (hmk : markerPresent s1.fs T = true)
    (hm : env.mkdirRaises = false) (hp : env.popenRaises = false)
    (hw : env.pullWrites = []) :
    (runMain env T s1.fs).2 = .ok ∧
    (runMain env T s1.fs).1.fs = s1.fs ∧
    dirsAll s1.fs T = true ∧
    lookupP (runMain env T s1.fs).1.fs (configPath T) =
      lookupP s1.fs (configPath T) := by
  have hb : belowMinB env = false := by
    by_cases hbb : belowMinB env = true
    · rw [rm_below env T fs hbb] at h1
      exact absurd h1 (by simp)
    · simpa using hbb
  obtain ⟨sq, hq⟩ := main_ok_decomp env T fs s1 h1
  obtain ⟨hdirs, hnoex⟩ := aa_ok_props env T sq s1 hq
  rw [rm_above env T s1.fs hb]
  unfold mainBody
  dsimp only
  have hmk2 : markerPresent (pr (pr (⟨s1.fs, ["BANNER"], []⟩ : St)
      ("[OK] Python " ++ toString env.pyMajor ++ "." ++ toString env.pyMinor ++ "."
        ++ toString env.pyMicro)) ("[INFO] Installing to: " ++ pathStr T)).fs T = true := by
    simpa [pr] using hmk
  obtain ⟨ha, hok, hfs⟩ := run2_marker env T _ hmk2 hm hp hw
    (by simpa [pr] using hdirs) (by simpa [pr] using hnoex)
  rw [ha]
  dsimp only
  refine ⟨hok, ?_, hdirs, ?_⟩
  · rw [hfs]
    simp [pr]
  · rw [hfs]
    simp [pr]

/-- Witness for C5: a fresh install via clone followed by a second run on
the resulting filesystem; the second run succeeds and changes nothing. -/
theorem claim_C5_witness :
    (runMain envClone ["t"] ((runMain envClone ["t"] []).1.fs)).2 = .ok ∧
    (runMain envClone ["t"] ((runMain envClone ["t"] []).1.fs)).1.fs =
      (runMain envClone ["t"] []).1.fs := by
  have h := claim_C5 envClone ["t"] [] ((runMain envClone ["t"] []).1)
    (by decide) (by decide) rfl rfl rfl
  exact ⟨h.1, h.2.1⟩

end Bootstrap
